import Mathlib

/-!
SDL CoreAudio backend (`src/audio/macosx/SDL_coreaudio.c`).

A shallow embedding of the CoreAudio driver: the device directory
(`build_device_list`, `find_device_id`), the device selector
(`find_device_by_name`), the open / close sequence (`COREAUDIO_OpenAudio`,
`prepare_audiounit`, `COREAUDIO_CloseAudio`) and the render callback
(`outputCallback`).

Conventions of the embedding.

* Memory blocks are lists of bytes; a pointer that may be `NULL` is an `Option`.
* C `int` flags that are only tested for truth are `Bool`.
* `UInt32` counters are `Nat`: every subtraction in the source is guarded by a
  comparison and every addition is bounded by a buffer size, so no operation
  wraps.
* Calls into the platform (CoreAudio, the allocator) are answered by an explicit
  `Platform` record, and every call that has an effect is recorded, in program
  order, in a list of `Event`s.
* A function that can dereference `NULL` or loop forever returns an `Option`;
  loops that the source bounds only by their own progress take a `fuel`
  argument, and `none` means the fuel ran out (or a `NULL` was dereferenced).
-/

namespace CoreAudio

/-! ## Basic types -/

/-- One `Uint8` of sample data. Bytes are only copied and compared. -/
abbrev Byte := Nat

/-- CoreAudio status code (`SInt32`); `noErr` is zero. -/
abbrev OSStatus := Int

/-- CoreAudio device handle (`UInt32`). -/
abbrev AudioDeviceID := Nat

/-- SDL sample encoding (`Uint16`). -/
abbrev SDL_AudioFormat := Nat

def noErr : OSStatus := 0

def kAudioHardwareNoError : OSStatus := 0

/-- The call `SDL_memset(dst, c, n)`: the first `n` bytes of `dst` become `c`.
(A call that writes past the end of `dst` lengthens the list; the driver only
calls it with the size of the block.) -/
def SDL_memset (dst : List Byte) (c : Byte) (n : Nat) : List Byte :=
  List.replicate n c ++ dst.drop n

/-- The call `SDL_memcpy(dst + pos, src + off, len)`: `len` bytes of `src`,
starting at `off`, replace the bytes of `dst` starting at `pos`. -/
def SDL_memcpy (dst : List Byte) (pos : Nat) (src : List Byte) (off len : Nat) :
    List Byte :=
  dst.take pos ++ (src.drop off).take len ++ dst.drop (pos + len)

/-! ## Stream state -/

/-- One segment of an `AudioBufferList`. `mData` is the destination memory;
`mDataByteSize` is its length. -/
structure AudioBuffer where
  mNumberChannels : Nat
  mData : List Byte
deriving DecidableEq, Repr

def AudioBuffer.mDataByteSize (b : AudioBuffer) : Nat := b.mData.length

/-- An `AudioBufferList`: `mNumberBuffers` is the length of `mBuffers`. -/
abbrev AudioBufferList := List AudioBuffer

/-- The driver's private data, `struct SDL_PrivateAudioData` (`this->hidden`).
`audioUnit` is the handle of the opened component. -/
structure SDL_PrivateAudioData where
  audioUnit : Nat
  buffer : Option (List Byte)
  bufferOffset : Nat
  bufferSize : Nat
  deviceID : AudioDeviceID
  isCapture : Bool
deriving DecidableEq, Repr

/-- The user callback `(*callback)(userdata, stream, len)`. It overwrites the
`len` bytes at `stream` in place and may update whatever `userdata` points to;
here it returns the new user state and the new contents of the buffer. -/
abbrev SDL_AudioCallback (U : Type) := U → List Byte → Nat → U × List Byte

/-- The fields of `SDL_AudioSpec` the driver reads or writes. -/
structure SDL_AudioSpec (U : Type) where
  freq : Nat
  format : SDL_AudioFormat
  channels : Nat
  silence : Byte
  samples : Nat
  size : Nat
  callback : SDL_AudioCallback U
  userdata : U

/-- The fields of `SDL_AudioDevice` the driver reads or writes. -/
structure SDL_AudioDevice (U : Type) where
  spec : SDL_AudioSpec U
  enabled : Bool
  paused : Bool
  hidden : Option SDL_PrivateAudioData

/-- A callback that writes inside the buffer it is handed: the buffer it leaves
behind has the length it was given. -/
def WritesInPlace {U : Type} (cb : SDL_AudioCallback U) : Prop :=
  ∀ (u : U) (b : List Byte) (n : Nat), b.length = n → (cb u b n).2.length = n

/-! ## The render callback -/

/-- The arguments of one invocation of the user callback: the buffer it was
handed and the length it was told. -/
abbrev CallbackCall := List Byte × Nat

/-- The variables of the copy loop of `outputCallback`: the device, the
destination memory `ioData->mData`, the write position `ptr` (as an offset into
the destination), `remaining`, and the user-callback invocations made so far. -/
structure RenderState (U : Type) where
  this : SDL_AudioDevice U
  mData : List Byte
  ptr : Nat
  remaining : Nat
  calls : List CallbackCall

/-- The loop `while (remaining > 0) { ... }` of `outputCallback`. -/
def outputLoop {U : Type} : Nat → RenderState U → Option (RenderState U)
  | fuel, st =>
    if st.remaining = 0 then some st
    else
      match fuel with
      | 0 => none
      | fuel + 1 =>
        match st.this.hidden with
        | none => none
        | some h =>
          match h.buffer with
          | none => none
          | some buf =>
            -- if (bufferOffset >= bufferSize) { memset; callback; bufferOffset = 0; }
            let gen :=
              if h.bufferOffset ≥ h.bufferSize then
                let silent := SDL_memset buf st.this.spec.silence h.bufferSize
                let r := st.this.spec.callback st.this.spec.userdata silent h.bufferSize
                (r.1, r.2, 0, st.calls ++ [(silent, h.bufferSize)])
              else (st.this.spec.userdata, buf, h.bufferOffset, st.calls)
            let userdata := gen.1
            let buf1 := gen.2.1
            let off := gen.2.2.1
            let calls := gen.2.2.2
            -- len = bufferSize - bufferOffset; if (len > remaining) len = remaining;
            let len0 := h.bufferSize - off
            let len := if len0 > st.remaining then st.remaining else len0
            let mData := SDL_memcpy st.mData st.ptr buf1 off len
            outputLoop fuel
              { this :=
                  { st.this with
                    spec := { st.this.spec with userdata := userdata }
                    hidden := some { h with buffer := some buf1, bufferOffset := off + len } }
                mData := mData
                ptr := st.ptr + len
                remaining := st.remaining - len
                calls := calls }

/-- What a render request leaves behind: the device, the buffer list handed
back to the hardware, the user-callback invocations made during the request
and the returned status. -/
structure RenderOutcome (U : Type) where
  this : SDL_AudioDevice U
  ioDataList : AudioBufferList
  calls : List CallbackCall
  status : OSStatus

/-- The render callback `outputCallback(inRefCon, ..., ioDataList)`. -/
def outputCallback {U : Type} (fuel : Nat) (this : SDL_AudioDevice U)
    (ioDataList : AudioBufferList) : Option (RenderOutcome U) :=
  match ioDataList with
  | [ioData] =>
    if !this.enabled || this.paused then
      some { this := this
             ioDataList :=
               [{ ioData with
                  mData := SDL_memset ioData.mData this.spec.silence ioData.mDataByteSize }]
             calls := []
             status := 0 }
    else
      match outputLoop fuel
          { this := this, mData := ioData.mData, ptr := 0,
            remaining := ioData.mDataByteSize, calls := [] } with
      | none => none
      | some st =>
        some { this := st.this
               ioDataList := [{ ioData with mData := st.mData }]
               calls := st.calls
               status := 0 }
  | _ =>
    -- if (ioDataList->mNumberBuffers != 1) return noErr;
    some { this := this, ioDataList := ioDataList, calls := [], status := noErr }

/-- What a sequence of render requests leaves behind. -/
structure RenderTrace (U : Type) where
  this : SDL_AudioDevice U
  delivered : List AudioBufferList
  calls : List CallbackCall

/-- The hardware issuing render requests one after the other on the same
device. -/
def renderRequests {U : Type} (fuel : Nat) :
    SDL_AudioDevice U → List AudioBufferList → Option (RenderTrace U)
  | this, [] => some { this := this, delivered := [], calls := [] }
  | this, req :: reqs =>
    match outputCallback fuel this req with
    | none => none
    | some out =>
      match renderRequests fuel out.this reqs with
      | none => none
      | some tr =>
        some { this := tr.this
               delivered := out.ioDataList :: tr.delivered
               calls := out.calls ++ tr.calls }

/-- The bytes of a sequence of handed-back buffer lists, in order. -/
def deliveredBytes (lists : List AudioBufferList) : List Byte :=
  (lists.map (fun l => (l.map AudioBuffer.mData).flatten)).flatten

/-- The first `n` buffers the user callback produces when it is handed, each
time, a buffer of `C` bytes of silence, starting from user state `u`. -/
def callbackBuffers {U : Type} (cb : SDL_AudioCallback U) (silence : Byte) (C : Nat) :
    Nat → U → List (List Byte)
  | 0, _ => []
  | n + 1, u =>
    let r := cb u (List.replicate C silence) C
    r.2 :: callbackBuffers cb silence C n r.1

/-- The user state after `n` invocations on silent buffers of `C` bytes. -/
def callbackState {U : Type} (cb : SDL_AudioCallback U) (silence : Byte) (C : Nat) :
    Nat → U → U
  | 0, u => u
  | n + 1, u => callbackState cb silence C n (cb u (List.replicate C silence) C).1

/-- A single-segment render request for the destination `b`. -/
def singleSegment (b : AudioBuffer) : AudioBufferList := [b]

/-- The bytes the bridge has still to hand out: the unconsumed rest of the
intermediate buffer followed by the next `n` buffers of the user callback. -/
def pending {U : Type} (cb : SDL_AudioCallback U) (silence : Byte) (C : Nat) (n : Nat)
    (buf : List Byte) (off : Nat) (u : U) : List Byte :=
  buf.drop off ++ (callbackBuffers cb silence C n u).flatten

/-- The state after one iteration of the copy loop that had to regenerate the
intermediate buffer. -/
def refillStep {U : Type} (st : RenderState U) (h : SDL_PrivateAudioData) (buf : List Byte) :
    RenderState U :=
  { this :=
      { st.this with
        spec := { st.this.spec with
                  userdata := (st.this.spec.callback st.this.spec.userdata
                    (SDL_memset buf st.this.spec.silence h.bufferSize) h.bufferSize).1 }
        hidden := some { h with
          buffer := some (st.this.spec.callback st.this.spec.userdata
                    (SDL_memset buf st.this.spec.silence h.bufferSize) h.bufferSize).2
          bufferOffset := 0 + min h.bufferSize st.remaining } }
    mData := SDL_memcpy st.mData st.ptr (st.this.spec.callback st.this.spec.userdata
                    (SDL_memset buf st.this.spec.silence h.bufferSize) h.bufferSize).2 0
                    (min h.bufferSize st.remaining)
    ptr := st.ptr + min h.bufferSize st.remaining
    remaining := st.remaining - min h.bufferSize st.remaining
    calls := st.calls ++ [(SDL_memset buf st.this.spec.silence h.bufferSize, h.bufferSize)] }

/-- The state after one iteration of the copy loop that found unconsumed bytes
in the intermediate buffer. -/
def copyStep {U : Type} (st : RenderState U) (h : SDL_PrivateAudioData) (buf : List Byte) :
    RenderState U :=
  { this :=
      { st.this with
        spec := { st.this.spec with userdata := st.this.spec.userdata }
        hidden := some { h with
          buffer := some buf
          bufferOffset := h.bufferOffset + min (h.bufferSize - h.bufferOffset) st.remaining } }
    mData := SDL_memcpy st.mData st.ptr buf h.bufferOffset
                    (min (h.bufferSize - h.bufferOffset) st.remaining)
    ptr := st.ptr + min (h.bufferSize - h.bufferOffset) st.remaining
    remaining := st.remaining - min (h.bufferSize - h.bufferOffset) st.remaining
    calls := st.calls }

/-! ## Platform answers and recorded effects -/

/-- An audio unit scope (`kAudioUnitScope_Global`, `_Input`, `_Output`). -/
inductive AudioUnitScope where
  | Global
  | Input
  | Output
deriving DecidableEq, Repr

/-- The render procedure stored in an `AURenderCallbackStruct`; `zeroed` is the
struct after `memset(&callback, 0, ...)`. -/
inductive RenderProc where
  | zeroed
  | inputCallback
  | outputCallback
deriving DecidableEq, Repr

/-- The stream description `AudioStreamBasicDescription`. -/
structure AudioStreamBasicDescription where
  mSampleRate : Nat
  mFormatID : Nat
  mFormatFlags : Nat
  mBytesPerPacket : Nat
  mFramesPerPacket : Nat
  mBytesPerFrame : Nat
  mChannelsPerFrame : Nat
  mBitsPerChannel : Nat
deriving DecidableEq, Repr

/-- The calls with an effect outside the driver, in the order the driver makes
them. -/
inductive Event where
  | SDL_SetError (msg : String)
  | SDL_OutOfMemory
  | GetStreamConfiguration (dev : AudioDeviceID) (iscapture : Bool)
  | GetObjectName (dev : AudioDeviceID) (iscapture : Bool)
  | OpenAComponent
  | SetEnableIOFlag (scope : AudioUnitScope) (bus : Nat) (flag : Nat)
  | SetCurrentDevice (dev : AudioDeviceID)
  | SetStreamFormat (scope : AudioUnitScope) (bus : Nat) (strdesc : AudioStreamBasicDescription)
  | SetRenderCallback (scope : AudioUnitScope) (bus : Nat) (proc : RenderProc)
  | AudioUnitInitialize
  | AudioOutputUnitStart
  | AudioOutputUnitStop
  | CloseComponent
  | SDL_free_buffer
  | SDL_free_hidden
deriving DecidableEq, Repr

/-- What the platform answers to each call of the driver. A query returns its
status together with the value left in the output variable. -/
structure Platform where
  /-- Status of `AudioHardwareGetPropertyInfo(kAudioHardwarePropertyDevices)` -/
  hardwareDevicesInfo : OSStatus
  /-- Whether `SDL_malloc` of the device table succeeds -/
  mallocDevices : Bool
  /-- Status of `AudioHardwareGetProperty(kAudioHardwarePropertyDevices)` -/
  hardwareDevices : OSStatus × List AudioDeviceID
  /-- Status of `AudioDeviceGetPropertyInfo(dev, 0, iscapture, StreamConfiguration)` -/
  streamConfigurationInfo : AudioDeviceID → Bool → OSStatus
  /-- Whether `SDL_malloc` of the buffer list succeeds -/
  mallocBuflist : AudioDeviceID → Bool
  /-- Status of `AudioDeviceGetProperty(dev, 0, iscapture, StreamConfiguration)` -/
  streamConfiguration : AudioDeviceID → Bool → OSStatus × AudioBufferList
  /-- Status of `AudioDeviceGetProperty(dev, 0, iscapture, kAudioObjectPropertyName)` -/
  objectName : AudioDeviceID → Bool → OSStatus
  /-- The characters of the C string that `SDL_malloc` and `CFStringGetCString`
  produce for the name, `none` when either fails -/
  nameCString : AudioDeviceID → Bool → Option (List Char)
  /-- Whether `SDL_malloc` of the private data succeeds -/
  mallocHidden : Bool
  /-- Status and value of `AudioHardwareGetProperty` for the default input or
  output device -/
  defaultDevice : Bool → OSStatus × AudioDeviceID
  /-- Status of `AudioDeviceGetProperty(devid, 0, iscapture, DeviceIsAlive)` -/
  deviceIsAlive : AudioDeviceID → Bool → OSStatus × Nat
  /-- Status of `AudioDeviceGetProperty(devid, 0, iscapture, HogMode)` -/
  hogMode : AudioDeviceID → Bool → OSStatus × Int
  /-- Whether `FindNextComponent` returns a component -/
  findNextComponent : Bool
  /-- Status of `OpenAComponent` and the handle stored in `audioUnit` -/
  openAComponent : OSStatus × Nat
  /-- Status of `AudioUnitSetProperty(EnableIO, kAudioUnitScope_Input, input_bus)` -/
  enableIOInput : OSStatus
  /-- Status of `AudioUnitSetProperty(EnableIO, kAudioUnitScope_Output, output_bus)` -/
  enableIOOutput : OSStatus
  /-- Status of `AudioUnitSetProperty(CurrentDevice)` -/
  setCurrentDevice : OSStatus
  /-- Status of `AudioUnitSetProperty(StreamFormat)` -/
  setStreamFormat : OSStatus
  /-- Status of `AudioUnitSetProperty(SetRenderCallback)` installing the callback -/
  setRenderCallback : OSStatus
  /-- The routine `SDL_CalculateAudioSpec`: from format, channels and samples, the
  `silence` and `size` it stores in the spec -/
  calculateAudioSpec : SDL_AudioFormat → Nat → Nat → Byte × Nat
  /-- Whether `SDL_malloc` of the sample buffer succeeds -/
  mallocBuffer : Bool
  /-- The contents of freshly allocated memory -/
  heapByte : Nat → Byte
  /-- Status of `AudioUnitInitialize` -/
  audioUnitInitialize : OSStatus
  /-- Status of `AudioOutputUnitStart` -/
  audioOutputUnitStart : OSStatus
  /-- Modelled from the spec: the ordered candidate encodings that
  `SDL_FirstAudioFormat` / `SDL_NextAudioFormat` (in `SDL_audio.c`) walk for a
  requested encoding; the end of the list is reported as `0`. -/
  formatCandidates : SDL_AudioFormat → List SDL_AudioFormat

/-! ## Device directory -/

/-- One record of a device list: `struct COREAUDIO_DeviceList`. The name is the
sequence of characters of the C string. -/
structure COREAUDIO_DeviceList where
  id : AudioDeviceID
  name : List Char
deriving DecidableEq, Repr

/-- The file-scope device tables; the counts are the lengths of the lists. -/
structure Globals where
  inputDevices : List COREAUDIO_DeviceList
  outputDevices : List COREAUDIO_DeviceList
deriving DecidableEq, Repr

/-- The loop `while ((len > 0) && (ptr[len-1] == ' ')) len--;`: the value of
`len` when it exits. -/
def trimTrailingSpaces (ptr : List Char) : Nat → Nat
  | 0 => 0
  | len + 1 => if ptr[len]? = some ' ' then trimTrailingSpaces ptr len else len + 1

/-- The scan `for (j = 0; j < mNumberBuffers; j++) if (mNumberChannels > 0) ...`
of a buffer list: whether some buffer has a positive channel count. -/
def hasChannels : AudioBufferList → Bool
  | [] => false
  | b :: rest => if b.mNumberChannels > 0 then true else hasChannels rest

/-- The body of the `for` loop of `build_device_list` for the devices still to
visit, given the table and the effects so far. -/
def build_device_loop (P : Platform) (iscapture : Bool) :
    List AudioDeviceID → List COREAUDIO_DeviceList → List Event →
      List COREAUDIO_DeviceList × List Event
  | [], devices, ev => (devices, ev)
  | dev :: rest, devices, ev =>
    if P.streamConfigurationInfo dev iscapture ≠ noErr then
      build_device_loop P iscapture rest devices ev
    else if !P.mallocBuflist dev then
      build_device_loop P iscapture rest devices ev
    else
      let ev := ev ++ [Event.GetStreamConfiguration dev iscapture]
      let cfg := P.streamConfiguration dev iscapture
      let usable := if cfg.1 = noErr then hasChannels cfg.2 else false
      if !usable then
        build_device_loop P iscapture rest devices ev
      else
        let ev := ev ++ [Event.GetObjectName dev iscapture]
        if P.objectName dev iscapture ≠ kAudioHardwareNoError then
          build_device_loop P iscapture rest devices ev
        else
          match P.nameCString dev iscapture with
          | none => build_device_loop P iscapture rest devices ev
          | some ptr =>
            -- len = strlen(ptr); trim; usable = (len > 0);
            let len := trimTrailingSpaces ptr ptr.length
            if len > 0 then
              -- ptr[len] = 0; append the record
              build_device_loop P iscapture rest
                (devices ++ [{ id := dev, name := ptr.take len }]) ev
            else
              build_device_loop P iscapture rest devices ev

/-- The rebuild `build_device_list(iscapture, &devices, &devCount)`: the new
table (the old one is freed first) and the queries made. -/
def build_device_list (P : Platform) (iscapture : Bool) :
    List COREAUDIO_DeviceList × List Event :=
  if P.hardwareDevicesInfo ≠ kAudioHardwareNoError then ([], [])
  else if !P.mallocDevices then ([], [])
  else if P.hardwareDevices.1 ≠ kAudioHardwareNoError then ([], [])
  else build_device_loop P iscapture P.hardwareDevices.2 [] []

/-- The scan `while (i--) { ...; devs++; }` of `find_device_id` over a table;
`id` is the current content of `*id`. -/
def find_device_scan (devname : List Char) :
    List COREAUDIO_DeviceList → AudioDeviceID → Int × AudioDeviceID
  | [], id => (0, id)
  | d :: devs, id =>
    if devname = d.name then (1, d.id)        -- SDL_strcmp(devname, devs->name) == 0
    else find_device_scan devname devs id

/-- The lookup `find_device_id(devname, iscapture, id)`: the return value and `*id`. -/
def find_device_id (G : Globals) (devname : List Char) (iscapture : Bool)
    (id : AudioDeviceID) : Int × AudioDeviceID :=
  find_device_scan devname (if iscapture then G.inputDevices else G.outputDevices) id

/-! ## Close, device selection and open -/

def output_bus : Nat := 0

def input_bus : Nat := 1

/-- The close sequence `COREAUDIO_CloseAudio(this)`: the device afterwards and the
calls made. -/
def COREAUDIO_CloseAudio {U : Type} (this : SDL_AudioDevice U) :
    SDL_AudioDevice U × List Event :=
  match this.hidden with
  | none => (this, [])
  | some h =>
    let iscapture := h.isCapture
    let bus := if iscapture then input_bus else output_bus
    let scope := if iscapture then AudioUnitScope.Output else AudioUnitScope.Input
    ({ this with hidden := none },
      [Event.AudioOutputUnitStop,
       Event.SetRenderCallback scope bus RenderProc.zeroed,
       Event.CloseComponent,
       Event.SDL_free_buffer,
       Event.SDL_free_hidden])

/-- The macro `CHECK_RESULT(msg)` when `result != noErr`: close, set the error,
`return 0`. `ev` are the effects so far. -/
def CHECK_RESULT {U : Type} (this : SDL_AudioDevice U) (ev : List Event) (msg : String)
    (result : OSStatus) : Int × SDL_AudioDevice U × List Event :=
  let closed := COREAUDIO_CloseAudio this
  (0, closed.1,
    ev ++ closed.2 ++
      [Event.SDL_SetError ("CoreAudio error (" ++ msg ++ "): " ++ toString result)])

/-- The part of `find_device_by_name` after the identity `devid` is resolved:
the liveness check, the hog-mode check and the binding of the identity. The
result is the return value, the device and the effects, or `none` when
`this->hidden` is dereferenced while `NULL`. -/
def find_device_checks {U : Type} (P : Platform) (this : SDL_AudioDevice U)
    (devid : AudioDeviceID) (iscapture : Bool) :
    Option (Int × SDL_AudioDevice U × List Event) :=
  let alive := P.deviceIsAlive devid iscapture
  if alive.1 ≠ noErr then
    some (CHECK_RESULT this []
      "AudioDeviceGetProperty (kAudioDevicePropertyDeviceIsAlive)" alive.1)
  else if alive.2 = 0 then
    some (0, this,
      [Event.SDL_SetError "CoreAudio: requested device exists, but isn't alive."])
  else
    let hog := P.hogMode devid iscapture
    -- some devices don't support this property, so errors are fine here.
    if hog.1 = noErr ∧ hog.2 ≠ -1 then
      some (0, this, [Event.SDL_SetError "CoreAudio: requested device is being hogged."])
    else
      match this.hidden with
      | none => none
      | some h => some (1, { this with hidden := some { h with deviceID := devid } }, [])

/-- The selector `find_device_by_name(this, devname, iscapture)`; `devname = none`
is the `NULL` name. -/
def find_device_by_name {U : Type} (P : Platform) (G : Globals) (this : SDL_AudioDevice U)
    (devname : Option (List Char)) (iscapture : Bool) :
    Option (Int × SDL_AudioDevice U × List Event) :=
  match devname with
  | none =>
    let r := P.defaultDevice iscapture
    if r.1 ≠ noErr then
      some (CHECK_RESULT this [] "AudioHardwareGetProperty (default device)" r.1)
    else find_device_checks P this r.2 iscapture
  | some name =>
    let f := find_device_id G name iscapture 0
    if f.1 = 0 then
      some (0, this, [Event.SDL_SetError "CoreAudio: No such audio device."])
    else find_device_checks P this f.2 iscapture

/-- The body of `prepare_audiounit` from `OpenAComponent` on, with `h` the
private data `this->hidden` points to. -/
def prepare_opened {U : Type} (P : Platform) (this : SDL_AudioDevice U)
    (h : SDL_PrivateAudioData) (iscapture : Bool) (strdesc : AudioStreamBasicDescription)
    (ev : List Event) : Int × SDL_AudioDevice U × List Event :=
  let bus := if iscapture then input_bus else output_bus
  let scope := if iscapture then AudioUnitScope.Output else AudioUnitScope.Input
  -- result = OpenAComponent(comp, &this->hidden->audioUnit);
  let h := { h with audioUnit := P.openAComponent.2 }
  let this := { this with hidden := some h }
  let ev := ev ++ [Event.OpenAComponent]
  if P.openAComponent.1 ≠ noErr then
    CHECK_RESULT this ev "OpenAComponent" P.openAComponent.1
  else
  let ev := ev ++ [Event.SetEnableIOFlag AudioUnitScope.Input input_bus (if iscapture then 1 else 0)]
  if P.enableIOInput ≠ noErr then
    CHECK_RESULT this ev "AudioUnitSetProperty (kAudioUnitProperty_EnableIO input)"
      P.enableIOInput
  else
  let ev := ev ++ [Event.SetEnableIOFlag AudioUnitScope.Output output_bus (if iscapture then 0 else 1)]
  if P.enableIOOutput ≠ noErr then
    CHECK_RESULT this ev "AudioUnitSetProperty (kAudioUnitProperty_EnableIO output)"
      P.enableIOOutput
  else
  let ev := ev ++ [Event.SetCurrentDevice h.deviceID]
  if P.setCurrentDevice ≠ noErr then
    CHECK_RESULT this ev "AudioUnitSetProperty (kAudioOutputUnitProperty_CurrentDevice)"
      P.setCurrentDevice
  else
  let ev := ev ++ [Event.SetStreamFormat scope bus strdesc]
  if P.setStreamFormat ≠ noErr then
    CHECK_RESULT this ev "AudioUnitSetProperty (kAudioUnitProperty_StreamFormat)"
      P.setStreamFormat
  else
  let proc := if iscapture then RenderProc.inputCallback else RenderProc.outputCallback
  let ev := ev ++ [Event.SetRenderCallback scope bus proc]
  if P.setRenderCallback ≠ noErr then
    CHECK_RESULT this ev "AudioUnitSetProperty (kAudioUnitProperty_SetInputCallback)"
      P.setRenderCallback
  else
  -- SDL_CalculateAudioSpec(&this->spec);
  let computed := P.calculateAudioSpec this.spec.format this.spec.channels this.spec.samples
  let spec := { this.spec with silence := computed.1, size := computed.2 }
  -- bufferOffset = bufferSize = spec.size; buffer = SDL_malloc(bufferSize);
  let h := { h with
             bufferOffset := spec.size
             bufferSize := spec.size
             buffer := if P.mallocBuffer then some ((List.range spec.size).map P.heapByte)
                       else none }
  let this := { this with spec := spec, hidden := some h }
  let ev := ev ++ [Event.AudioUnitInitialize]
  if P.audioUnitInitialize ≠ noErr then
    CHECK_RESULT this ev "AudioUnitInitialize" P.audioUnitInitialize
  else
  let ev := ev ++ [Event.AudioOutputUnitStart]
  if P.audioOutputUnitStart ≠ noErr then
    CHECK_RESULT this ev "AudioOutputUnitStart" P.audioOutputUnitStart
  else
  -- We're running!
  (1, this, ev)

/-- The function `prepare_audiounit(this, devname, iscapture, strdesc)`. -/
def prepare_audiounit {U : Type} (P : Platform) (G : Globals) (this : SDL_AudioDevice U)
    (devname : Option (List Char)) (iscapture : Bool) (strdesc : AudioStreamBasicDescription) :
    Option (Int × SDL_AudioDevice U × List Event) :=
  match find_device_by_name P G this devname iscapture with
  | none => none
  | some (found, this, ev) =>
    if found = 0 then
      some (0, this, ev ++ [Event.SDL_SetError "Couldn't find requested CoreAudio device"])
    else if !P.findNextComponent then
      some (0, this, ev ++ [Event.SDL_SetError "Couldn't find requested CoreAudio component"])
    else
      match this.hidden with
      | none => none
      | some h => some (prepare_opened P this h iscapture strdesc ev)

/-! ## Sample encodings -/

/-- Modelled from the spec: the allow-listed encoding unsigned 8-bit, with the
value `SDL_audio.h` gives `AUDIO_U8`. -/
def AUDIO_U8 : SDL_AudioFormat := 0x0008

/-- Modelled from the spec: signed 8-bit (`AUDIO_S8` of `SDL_audio.h`). -/
def AUDIO_S8 : SDL_AudioFormat := 0x8008

/-- Modelled from the spec: unsigned 16-bit little endian (`AUDIO_U16LSB`). -/
def AUDIO_U16LSB : SDL_AudioFormat := 0x0010

/-- Modelled from the spec: signed 16-bit little endian (`AUDIO_S16LSB`). -/
def AUDIO_S16LSB : SDL_AudioFormat := 0x8010

/-- Modelled from the spec: unsigned 16-bit big endian (`AUDIO_U16MSB`). -/
def AUDIO_U16MSB : SDL_AudioFormat := 0x1010

/-- Modelled from the spec: signed 16-bit big endian (`AUDIO_S16MSB`). -/
def AUDIO_S16MSB : SDL_AudioFormat := 0x9010

/-- Modelled from the spec: signed 32-bit little endian (`AUDIO_S32LSB`). -/
def AUDIO_S32LSB : SDL_AudioFormat := 0x8020

/-- Modelled from the spec: signed 32-bit big endian (`AUDIO_S32MSB`). -/
def AUDIO_S32MSB : SDL_AudioFormat := 0x9020

/-- Modelled from the spec: 32-bit float little endian (`AUDIO_F32LSB`). -/
def AUDIO_F32LSB : SDL_AudioFormat := 0x8120

/-- Modelled from the spec: 32-bit float big endian (`AUDIO_F32MSB`). -/
def AUDIO_F32MSB : SDL_AudioFormat := 0x9120

/-- Modelled from the spec: bits per sample of an encoding, the macro
`SDL_AUDIO_BITSIZE` of `SDL_audio.h`. -/
def SDL_AUDIO_BITSIZE (x : SDL_AudioFormat) : Nat := x &&& 0xFF

/-- Modelled from the spec: float-ness of an encoding (`SDL_AUDIO_ISFLOAT`). -/
def SDL_AUDIO_ISFLOAT (x : SDL_AudioFormat) : Bool := x &&& 0x100 != 0

/-- Modelled from the spec: endianness of an encoding (`SDL_AUDIO_ISBIGENDIAN`). -/
def SDL_AUDIO_ISBIGENDIAN (x : SDL_AudioFormat) : Bool := x &&& 0x1000 != 0

/-- Modelled from the spec: signedness of an encoding (`SDL_AUDIO_ISSIGNED`). -/
def SDL_AUDIO_ISSIGNED (x : SDL_AudioFormat) : Bool := x &&& 0x8000 != 0

/-- CoreAudio's `kAudioFormatLinearPCM` (the four characters `lpcm`). -/
def kAudioFormatLinearPCM : Nat := 0x6C70636D

def kLinearPCMFormatFlagIsFloat : Nat := 1

def kLinearPCMFormatFlagIsBigEndian : Nat := 2

def kLinearPCMFormatFlagIsSignedInteger : Nat := 4

def kLinearPCMFormatFlagIsPacked : Nat := 8

/-- The `case` labels of the `switch (test_format)` in `COREAUDIO_OpenAudio`:
the list of valid SDL formats. -/
def validFormats : List SDL_AudioFormat :=
  [AUDIO_U8, AUDIO_S8, AUDIO_U16LSB, AUDIO_S16LSB, AUDIO_U16MSB, AUDIO_S16MSB,
   AUDIO_S32LSB, AUDIO_S32MSB, AUDIO_F32LSB, AUDIO_F32MSB]

/-- Modelled from the spec: the first candidate encoding, `SDL_FirstAudioFormat`
of `SDL_audio.c`: the head of the candidate list, `0` when the list is empty. -/
def SDL_FirstAudioFormat (P : Platform) (format : SDL_AudioFormat) : SDL_AudioFormat :=
  (P.formatCandidates format).headD 0

/-- The variables the negotiation loop of `COREAUDIO_OpenAudio` writes:
`this->spec.format`, `valid_datatype` and `strdesc`. -/
structure Negotiation where
  format : SDL_AudioFormat
  valid_datatype : Bool
  strdesc : AudioStreamBasicDescription
deriving DecidableEq, Repr

/-- The loop `while ((!valid_datatype) && (test_format)) { ... }` of
`COREAUDIO_OpenAudio`. The body never assigns `test_format`. -/
def negotiationLoop (test_format : SDL_AudioFormat) : Nat → Negotiation → Option Negotiation
  | fuel, st =>
    if !(!st.valid_datatype && test_format != 0) then some st
    else
      match fuel with
      | 0 => none
      | fuel + 1 =>
        -- this->spec.format = test_format;
        let format := test_format
        if test_format ∈ validFormats then
          let flags0 := st.strdesc.mFormatFlags
          let flags1 :=
            if SDL_AUDIO_ISBIGENDIAN format then flags0 ||| kLinearPCMFormatFlagIsBigEndian
            else flags0
          let flags2 :=
            if SDL_AUDIO_ISFLOAT format then flags1 ||| kLinearPCMFormatFlagIsFloat
            else if SDL_AUDIO_ISSIGNED format then flags1 ||| kLinearPCMFormatFlagIsSignedInteger
            else flags1
          negotiationLoop test_format fuel
            { format := format
              valid_datatype := true
              strdesc := { st.strdesc with
                           mBitsPerChannel := SDL_AUDIO_BITSIZE format
                           mFormatFlags := flags2 } }
        else
          negotiationLoop test_format fuel { st with format := format }

/-- The open entry point `COREAUDIO_OpenAudio(this, devname, iscapture)`: the
return value, the device and the effects; `none` when the call does not return
within `fuel` iterations of the negotiation loop (or dereferences `NULL`). -/
def COREAUDIO_OpenAudio {U : Type} (P : Platform) (G : Globals) (fuel : Nat)
    (this : SDL_AudioDevice U) (devname : Option (List Char)) (iscapture : Bool) :
    Option (Int × SDL_AudioDevice U × List Event) :=
  let test_format := SDL_FirstAudioFormat P this.spec.format
  -- Initialize all variables that we clean on shutdown
  if !P.mallocHidden then
    some (0, { this with hidden := none }, [Event.SDL_OutOfMemory])
  else
    let h : SDL_PrivateAudioData :=
      { audioUnit := 0, buffer := none, bufferOffset := 0, bufferSize := 0, deviceID := 0,
        isCapture := iscapture }
    let this := { this with hidden := some h }
    let strdesc : AudioStreamBasicDescription :=
      { mSampleRate := this.spec.freq
        mFormatID := kAudioFormatLinearPCM
        mFormatFlags := kLinearPCMFormatFlagIsPacked
        mBytesPerPacket := 0
        mFramesPerPacket := 1
        mBytesPerFrame := 0
        mChannelsPerFrame := this.spec.channels
        mBitsPerChannel := 0 }
    match negotiationLoop test_format fuel
        { format := this.spec.format, valid_datatype := false, strdesc := strdesc } with
    | none => none
    | some n =>
      let this := { this with spec := { this.spec with format := n.format } }
      if !n.valid_datatype then
        -- shouldn't happen, but just in case...
        some (0, this, [Event.SDL_SetError "Unsupported audio format"])
      else
        let mBytesPerFrame := n.strdesc.mBitsPerChannel * n.strdesc.mChannelsPerFrame / 8
        let strdesc := { n.strdesc with
                         mBytesPerFrame := mBytesPerFrame
                         mBytesPerPacket := mBytesPerFrame * n.strdesc.mFramesPerPacket }
        match prepare_audiounit P G this devname iscapture strdesc with
        | none => none
        | some (r, this, ev) =>
          if r = 0 then some (0, this, ev)    -- prepare_audiounit() will call SDL_SetError()...
          else some (1, this, ev)             -- good to go.

/-! ## Concrete inputs -/

/-- A platform on which every call succeeds. It enumerates four devices: 41
(two channels, name `Line Out` followed by two spaces), 42 (no channels), 43
(two channels, a name of three spaces) and 44 (two channels, a name that is a
single tab). Device 41 is the default, alive and not hogged. -/
def samplePlatform : Platform :=
  { hardwareDevicesInfo := 0
    mallocDevices := true
    hardwareDevices := (0, [41, 42, 43, 44])
    streamConfigurationInfo := fun _ _ => 0
    mallocBuflist := fun _ => true
    streamConfiguration := fun dev _ =>
      (0, if dev = 42 then [{ mNumberChannels := 0, mData := [] }]
          else [{ mNumberChannels := 2, mData := [] }])
    objectName := fun _ _ => 0
    nameCString := fun dev _ =>
      if dev = 41 then some ['L', 'i', 'n', 'e', ' ', 'O', 'u', 't', ' ', ' ']
      else if dev = 43 then some [' ', ' ', ' ']
      else if dev = 44 then some ['\t']
      else some ['x']
    mallocHidden := true
    defaultDevice := fun _ => (0, 41)
    deviceIsAlive := fun _ _ => (0, 1)
    hogMode := fun _ _ => (0, -1)
    findNextComponent := true
    openAComponent := (0, 7)
    enableIOInput := 0
    enableIOOutput := 0
    setCurrentDevice := 0
    setStreamFormat := 0
    setRenderCallback := 0
    calculateAudioSpec := fun format channels samples =>
      (if format = 0x0008 then 0x80 else 0, (format &&& 0xFF) / 8 * channels * samples)
    mallocBuffer := true
    heapByte := fun _ => 0xAA
    audioUnitInitialize := 0
    audioOutputUnitStart := 0
    formatCandidates := fun format => [format] }

/-- The device tables the sample platform gives rise to. -/
def sampleGlobals : Globals :=
  { inputDevices := (build_device_list samplePlatform true).1
    outputDevices := (build_device_list samplePlatform false).1 }

/-- The deterministic user callback of the byte-conservation test: invocation
`i` (counted from 1) fills the whole buffer with the byte value `i`. -/
def countingCallback : SDL_AudioCallback Nat :=
  fun u _ len => (u + 1, List.replicate len (u + 1))

/-- A closed device asking for signed 16-bit stereo with 16 samples per
generation (a capacity of 64 bytes), driven by `countingCallback`. -/
def sampleDevice : SDL_AudioDevice Nat :=
  { spec := { freq := 44100, format := AUDIO_S16LSB, channels := 2, silence := 0,
              samples := 16, size := 0, callback := countingCallback, userdata := 0 }
    enabled := true
    paused := false
    hidden := none }

/-- The private data of the sample device right after a successful open: a
buffer of 64 uninitialised bytes with the cursor at the capacity. -/
def openedHidden : SDL_PrivateAudioData :=
  { audioUnit := 7, buffer := some (List.replicate 64 0xAA), bufferOffset := 64,
    bufferSize := 64, deviceID := 41, isCapture := false }

/-- The sample device right after a successful open. -/
def openedDevice : SDL_AudioDevice Nat :=
  { sampleDevice with
    spec := { sampleDevice.spec with size := 64 }
    hidden := some openedHidden }

/-- Three render requests of 10, 100 and 54 bytes. -/
def sampleRequests : List AudioBuffer :=
  [{ mNumberChannels := 2, mData := List.replicate 10 0 },
   { mNumberChannels := 2, mData := List.replicate 100 0 },
   { mNumberChannels := 2, mData := List.replicate 54 0 }]

/-- The private data `COREAUDIO_OpenAudio` allocates and zeroes before it
negotiates the format of an output stream. -/
def zeroedHidden : SDL_PrivateAudioData :=
  { audioUnit := 0, buffer := none, bufferOffset := 0, bufferSize := 0, deviceID := 0,
    isCapture := false }

/-- An encoding outside the valid formats: 32 bits without the sign bit. -/
def unlistedFormat : SDL_AudioFormat := 0x0020

/-- The identity `devid` is what `find_device_by_name` resolves the requested
name to: the default device reported by the platform for the `NULL` name, the
identity found by `find_device_id` otherwise. -/
def ResolvesTo (P : Platform) (G : Globals) (devname : Option (List Char)) (iscapture : Bool)
    (devid : AudioDeviceID) : Prop :=
  match devname with
  | none => P.defaultDevice iscapture = (noErr, devid)
  | some name => find_device_id G name iscapture 0 = (1, devid)

/-! ## Counting the invocations of the user callback -/

/-- The quotient `a / b` rounded up. -/
def ceilDiv (a b : Nat) : Nat := (a + b - 1) / b

/-- The number of invocations of the user callback a render request of `N`
bytes is said to make when it arrives with the cursor at `c` on a buffer of
capacity `C`: none when the `C - c` unconsumed bytes suffice, otherwise one for
every started block of `C` bytes beyond them. -/
def invocations (C c N : Nat) : Nat :=
  if N ≤ C - c then 0 else ceilDiv (N - (C - c)) C

/-- The sample device after it has served the first sample request: the buffer
holds the first block of the callback and the cursor is at 10. -/
def partlyConsumedHidden : SDL_PrivateAudioData :=
  { openedHidden with buffer := some (List.replicate 64 1), bufferOffset := 10 }

/-- The sample device with a partly consumed buffer. -/
def partlyConsumedDevice : SDL_AudioDevice Nat :=
  { openedDevice with
    spec := { openedDevice.spec with userdata := 1 }
    hidden := some partlyConsumedHidden }

/-! # Theorems -/

/-! ## The render loop -/

theorem SDL_memset_full (dst : List Byte) (c : Byte) :
    SDL_memset dst c dst.length = List.replicate dst.length c := by
  simp [SDL_memset]

theorem outputLoop_zero {U : Type} (fuel : Nat) (st : RenderState U) (h0 : st.remaining = 0) :
    outputLoop fuel st = some st := by
  unfold outputLoop
  simp [h0]

theorem outputLoop_refill {U : Type} (fuel : Nat) (st : RenderState U)
    (h : SDL_PrivateAudioData) (buf : List Byte)
    (hr : st.remaining ≠ 0) (hh : st.this.hidden = some h) (hb : h.buffer = some buf)
    (hge : h.bufferSize ≤ h.bufferOffset) :
    outputLoop (fuel + 1) st = outputLoop fuel (refillStep st h buf) := by
  rw [outputLoop]
  simp only [hr, if_false, hh, hb, ge_iff_le, hge, if_true, Nat.sub_zero]
  have hmin : (if h.bufferSize > st.remaining then st.remaining else h.bufferSize)
      = min h.bufferSize st.remaining := by
    rw [Nat.min_def]; split <;> split <;> omega
  rw [hmin]
  rfl

theorem outputLoop_copy {U : Type} (fuel : Nat) (st : RenderState U)
    (h : SDL_PrivateAudioData) (buf : List Byte)
    (hr : st.remaining ≠ 0) (hh : st.this.hidden = some h) (hb : h.buffer = some buf)
    (hlt : ¬ h.bufferSize ≤ h.bufferOffset) :
    outputLoop (fuel + 1) st = outputLoop fuel (copyStep st h buf) := by
  rw [outputLoop]
  simp only [hr, if_false, hh, hb, ge_iff_le, hlt]
  have hmin : (if h.bufferSize - h.bufferOffset > st.remaining then st.remaining
      else h.bufferSize - h.bufferOffset) = min (h.bufferSize - h.bufferOffset) st.remaining := by
    rw [Nat.min_def]; split <;> split <;> omega
  rw [hmin]
  rfl

theorem splice_splice (d chunk written : List Byte) (p m r : Nat)
    (hp : p + r ≤ d.length) (hm : m ≤ r) (hc : chunk.length = m) :
    List.take (p + m) (d.take p ++ chunk ++ d.drop (p + m)) ++ written ++
        List.drop (p + m + (r - m)) (d.take p ++ chunk ++ d.drop (p + m))
      = d.take p ++ (chunk ++ written) ++ d.drop (p + r) := by
  have hA : (d.take p ++ chunk).length = p + m := by
    simp only [List.length_append, List.length_take, hc]; omega
  rw [List.take_left' hA]
  have hd : List.drop (p + m + (r - m)) (d.take p ++ chunk ++ d.drop (p + m))
      = d.drop (p + r) := by
    rw [← hA, List.drop_append, List.drop_drop]
    congr 1; rw [hA]; omega
  rw [hd]
  simp only [List.append_assoc]

theorem replicate_snoc_calls (c : CallbackCall) (calls : List CallbackCall) (k : Nat) :
    calls ++ [c] ++ List.replicate k c = calls ++ List.replicate (k + 1) c := by
  simp [List.replicate_succ]

theorem callbackBuffers_succ {U : Type} (cb : SDL_AudioCallback U) (silence : Byte) (C n : Nat)
    (u : U) :
    callbackBuffers cb silence C (n + 1) u =
      (cb u (List.replicate C silence) C).2 ::
        callbackBuffers cb silence C n (cb u (List.replicate C silence) C).1 := rfl

/-- With a capacity of zero the copy loop makes no progress: a request for at
least one byte regenerates the empty buffer at every iteration and is still
running when the fuel is spent, whatever the fuel. -/
theorem outputLoop_zero_capacity_stuck {U : Type} :
    ∀ (fuel : Nat) (st : RenderState U) (h : SDL_PrivateAudioData) (buf : List Byte),
      st.this.hidden = some h → h.buffer = some buf → h.bufferSize = 0 →
      st.remaining ≠ 0 → outputLoop fuel st = none := by
  intro fuel
  induction fuel with
  | zero =>
    intro st h buf _ _ _ hr
    unfold outputLoop
    simp [hr]
  | succ fuel ih =>
    intro st h buf hh hb hsz hr
    rw [outputLoop_refill fuel st h buf hr hh hb (by omega)]
    exact ih (refillStep st h buf) _ _ rfl rfl hsz (by simp only [refillStep, hsz]; omega)

/-- The copy loop, run with enough fuel on a well-formed stream of capacity
`C > 0`, returns; it overwrites exactly the `remaining` bytes at `ptr` with the
next bytes of the pending stream and leaves the rest of the pending stream
behind. `k` is the number of buffers it asked the user callback for. -/
theorem outputLoop_spec {U : Type} (C : Nat) (hC : 0 < C) :
    ∀ (fuel : Nat) (st : RenderState U) (h : SDL_PrivateAudioData) (buf : List Byte),
      st.this.hidden = some h → h.buffer = some buf → buf.length = C → h.bufferSize = C →
      WritesInPlace st.this.spec.callback → st.remaining ≤ fuel →
      st.ptr + st.remaining ≤ st.mData.length →
      ∃ (u' : U) (buf' : List Byte) (off' k : Nat) (written : List Byte),
        outputLoop fuel st = some
          { this := { st.this with
                      spec := { st.this.spec with userdata := u' }
                      hidden := some { h with buffer := some buf', bufferOffset := off' } }
            mData := st.mData.take st.ptr ++ written ++ st.mData.drop (st.ptr + st.remaining)
            ptr := st.ptr + st.remaining
            remaining := 0
            calls := st.calls ++ List.replicate k (List.replicate C st.this.spec.silence, C) } ∧
        buf'.length = C ∧ written.length = st.remaining ∧
        ∀ n, pending st.this.spec.callback st.this.spec.silence C (n + k) buf h.bufferOffset
               st.this.spec.userdata
             = written ++ pending st.this.spec.callback st.this.spec.silence C n buf' off' u' := by
  intro fuel
  induction fuel with
  | zero =>
    intro st h buf hh hb hlen hsz hcb hfuel hptr
    have h0 : st.remaining = 0 := by omega
    refine ⟨st.this.spec.userdata, buf, h.bufferOffset, 0, [], ?_, hlen, by simp [h0], ?_⟩
    · rw [outputLoop_zero _ _ h0]
      obtain ⟨⟨spec, en, pa, hid⟩, mData, ptr, rem, calls⟩ := st
      obtain ⟨uo, b, bo, bs, di, ic⟩ := h
      simp at hh hb h0 ⊢
      subst hh hb h0
      simp
    · intro n; simp
  | succ fuel ih =>
    intro st h buf hh hb hlen hsz hcb hfuel hptr
    by_cases h0 : st.remaining = 0
    · refine ⟨st.this.spec.userdata, buf, h.bufferOffset, 0, [], ?_, hlen, by simp [h0], ?_⟩
      · rw [outputLoop_zero _ _ h0]
        obtain ⟨⟨spec, en, pa, hid⟩, mData, ptr, rem, calls⟩ := st
        obtain ⟨uo, b, bo, bs, di, ic⟩ := h
        simp at hh hb h0 ⊢
        subst hh hb h0
        simp
      · intro n; simp
    · by_cases hge : h.bufferSize ≤ h.bufferOffset
      · rw [outputLoop_refill fuel st h buf h0 hh hb hge]
        have hsil : SDL_memset buf st.this.spec.silence h.bufferSize
            = List.replicate C st.this.spec.silence := by
          rw [hsz, ← hlen, SDL_memset_full]
        have hnb : (st.this.spec.callback st.this.spec.userdata
            (List.replicate C st.this.spec.silence) C).2.length = C :=
          hcb _ _ _ (by simp)
        have hnb' : (st.this.spec.callback st.this.spec.userdata
            (SDL_memset buf st.this.spec.silence h.bufferSize) h.bufferSize).2.length = C := by
          rw [hsil, hsz]; exact hnb
        have hsil' : SDL_memset buf st.this.spec.silence C
            = List.replicate C st.this.spec.silence := by
          rw [← hlen]; exact SDL_memset_full _ _
        obtain ⟨u', buf', off', k, written, hloop, hlen', hwl, hpend⟩ :=
          ih (refillStep st h buf)
            { h with
              buffer := some (st.this.spec.callback st.this.spec.userdata
                    (SDL_memset buf st.this.spec.silence h.bufferSize) h.bufferSize).2
              bufferOffset := 0 + min h.bufferSize st.remaining }
            (st.this.spec.callback st.this.spec.userdata
                    (SDL_memset buf st.this.spec.silence h.bufferSize) h.bufferSize).2
            rfl rfl hnb' hsz hcb
            (by simp only [refillStep]; omega)
            (by simp only [refillStep, SDL_memcpy, List.length_append, List.length_take,
                  List.length_drop]; omega)
        refine ⟨u', buf', off', k + 1,
          (st.this.spec.callback st.this.spec.userdata
            (List.replicate C st.this.spec.silence) C).2.take (min C st.remaining) ++ written,
          ?_, hlen', ?_, ?_⟩
        · rw [hloop]
          simp only [refillStep, SDL_memcpy, hsz, hsil', List.drop_zero, Nat.zero_add]
          rw [splice_splice _ _ _ _ _ _ hptr (Nat.min_le_right _ _)
                (by rw [List.length_take, hnb]; omega), replicate_snoc_calls]
          have hptr' : st.ptr + min C st.remaining + (st.remaining - min C st.remaining)
              = st.ptr + st.remaining := by omega
          rw [hptr']
        · simp only [List.length_append, hwl, List.length_take, hnb, refillStep, hsz]
          omega
        · intro n
          have hp := hpend n
          simp only [refillStep, hsz, hsil', Nat.zero_add] at hp
          rw [List.append_assoc, ← hp]
          have hn : n + (k + 1) = (n + k) + 1 := by omega
          rw [hn]
          simp only [pending, callbackBuffers_succ, List.flatten_cons]
          rw [List.drop_eq_nil_of_le (by omega)]
          simp only [List.nil_append, ← List.append_assoc, List.take_append_drop]
      · rw [outputLoop_copy fuel st h buf h0 hh hb hge]
        have hchunk : (List.take (min (C - h.bufferOffset) st.remaining)
            (List.drop h.bufferOffset buf)).length = min (C - h.bufferOffset) st.remaining := by
          rw [List.length_take, List.length_drop, hlen]; omega
        obtain ⟨u', buf', off', k, written, hloop, hlen', hwl, hpend⟩ :=
          ih (copyStep st h buf)
            { h with
              buffer := some buf
              bufferOffset := h.bufferOffset + min (h.bufferSize - h.bufferOffset) st.remaining }
            buf rfl rfl hlen hsz hcb
            (by simp only [copyStep]; omega)
            (by simp only [copyStep, SDL_memcpy, List.length_append, List.length_take,
                  List.length_drop]; omega)
        refine ⟨u', buf', off', k,
          (buf.drop h.bufferOffset).take (min (C - h.bufferOffset) st.remaining) ++ written,
          ?_, hlen', ?_, ?_⟩
        · rw [hloop]
          simp only [copyStep, SDL_memcpy, hsz]
          rw [splice_splice _ _ _ _ _ _ hptr (Nat.min_le_right _ _) hchunk]
          have hptr' : st.ptr + min (C - h.bufferOffset) st.remaining
              + (st.remaining - min (C - h.bufferOffset) st.remaining)
              = st.ptr + st.remaining := by omega
          rw [hptr']
        · simp only [List.length_append, hwl, hchunk, copyStep, hsz]
          omega
        · intro n
          have hp := hpend n
          simp only [copyStep, hsz] at hp
          rw [List.append_assoc, ← hp]
          simp only [pending, ← List.append_assoc]
          congr 1
          rw [← List.drop_drop, List.take_append_drop]

/-- One render request on an enabled, unpaused, well-formed stream of capacity
`C > 0`: the request returns, every byte of the destination is overwritten with
the next bytes of the pending stream, and the rest of the pending stream is left
behind. -/
theorem outputCallback_spec {U : Type} (C : Nat) (hC : 0 < C) (fuel : Nat)
    (this : SDL_AudioDevice U) (h : SDL_PrivateAudioData) (buf : List Byte) (b : AudioBuffer)
    (hen : this.enabled = true) (hpa : this.paused = false)
    (hh : this.hidden = some h) (hb : h.buffer = some buf) (hlen : buf.length = C)
    (hsz : h.bufferSize = C) (hcb : WritesInPlace this.spec.callback)
    (hfuel : b.mDataByteSize ≤ fuel) :
    ∃ (u' : U) (buf' : List Byte) (off' k : Nat) (written : List Byte),
      outputCallback fuel this [b] = some
        { this := { this with
                    spec := { this.spec with userdata := u' }
                    hidden := some { h with buffer := some buf', bufferOffset := off' } }
          ioDataList := [{ b with mData := written }]
          calls := List.replicate k (List.replicate C this.spec.silence, C)
          status := 0 } ∧
      buf'.length = C ∧ written.length = b.mDataByteSize ∧
      ∀ n, pending this.spec.callback this.spec.silence C (n + k) buf h.bufferOffset
             this.spec.userdata
           = written ++ pending this.spec.callback this.spec.silence C n buf' off' u' := by
  obtain ⟨u', buf', off', k, written, hloop, hlen', hwl, hpend⟩ :=
    outputLoop_spec C hC fuel
      { this := this, mData := b.mData, ptr := 0, remaining := b.mDataByteSize, calls := [] }
      h buf hh hb hlen hsz hcb hfuel (by simp [AudioBuffer.mDataByteSize])
  refine ⟨u', buf', off', k, written, ?_, hlen', hwl, hpend⟩
  simp only [outputCallback, hen, hpa, hloop]
  simp [AudioBuffer.mDataByteSize]

/-- A sequence of single-segment render requests on an enabled, unpaused,
well-formed stream of capacity `C > 0`: every request returns, request `i` gets
the block `ws[i]` of its own length, and the blocks are, in order, the front of
the pending stream. -/
theorem renderRequests_spec {U : Type} (C : Nat) (hC : 0 < C) (fuel : Nat) :
    ∀ (reqs : List AudioBuffer) (this : SDL_AudioDevice U) (h : SDL_PrivateAudioData)
      (buf : List Byte),
      this.enabled = true → this.paused = false →
      this.hidden = some h → h.buffer = some buf → buf.length = C →
      h.bufferSize = C → WritesInPlace this.spec.callback →
      (∀ b ∈ reqs, b.mDataByteSize ≤ fuel) →
      ∃ (u' : U) (buf' : List Byte) (off' k : Nat) (ws : List (List Byte)),
        renderRequests fuel this (reqs.map singleSegment) = some
          { this := { this with
                      spec := { this.spec with userdata := u' }
                      hidden := some { h with buffer := some buf', bufferOffset := off' } }
            delivered := List.zipWith (fun b w => [{ b with mData := w }]) reqs ws
            calls := List.replicate k (List.replicate C this.spec.silence, C) } ∧
        buf'.length = C ∧ ws.map List.length = reqs.map AudioBuffer.mDataByteSize ∧
        ∀ n, pending this.spec.callback this.spec.silence C (n + k) buf h.bufferOffset
               this.spec.userdata
             = ws.flatten ++ pending this.spec.callback this.spec.silence C n buf' off' u' := by
  intro reqs
  induction reqs with
  | nil =>
    intro this h buf hen hpa hh hb hlen hsz hcb hfuel
    refine ⟨this.spec.userdata, buf, h.bufferOffset, 0, [], ?_, hlen, rfl, ?_⟩
    · obtain ⟨spec, en, pa, hid⟩ := this
      obtain ⟨uo, b, bo, bs, di, ic⟩ := h
      simp at hh hb
      subst hh hb
      simp [renderRequests]
    · intro n; simp
  | cons b reqs ih =>
    intro this h buf hen hpa hh hb hlen hsz hcb hfuel
    obtain ⟨u1, buf1, off1, k1, w1, hout, hlen1, hwl1, hpend1⟩ :=
      outputCallback_spec C hC fuel this h buf b hen hpa hh hb hlen hsz hcb
        (hfuel b (List.mem_cons_self _ _))
    obtain ⟨u2, buf2, off2, k2, ws, hrest, hlen2, hwl2, hpend2⟩ :=
      ih { this with
           spec := { this.spec with userdata := u1 }
           hidden := some { h with buffer := some buf1, bufferOffset := off1 } }
        { h with buffer := some buf1, bufferOffset := off1 } buf1
        hen hpa rfl rfl hlen1 hsz hcb
        (fun b' hb' => hfuel b' (List.mem_cons_of_mem _ hb'))
    refine ⟨u2, buf2, off2, k1 + k2, w1 :: ws, ?_, hlen2, ?_, ?_⟩
    · simp only [List.map_cons, singleSegment, renderRequests, hout]
      simp only [singleSegment] at hrest
      rw [hrest]
      simp only [List.zipWith_cons_cons, List.replicate_add]
    · simp [hwl1, hwl2]
    · intro n
      have h1 := hpend1 (n + k2)
      have h2 := hpend2 n
      simp only at h2
      have hn : n + (k1 + k2) = n + k2 + k1 := by omega
      rw [hn, h1, h2]
      simp

theorem callbackBuffers_add {U : Type} (cb : SDL_AudioCallback U) (silence : Byte) (C : Nat)
    (m j : Nat) : ∀ (u : U),
    callbackBuffers cb silence C (m + j) u =
      callbackBuffers cb silence C m u
        ++ callbackBuffers cb silence C j (callbackState cb silence C m u) := by
  induction m with
  | zero => intro u; simp [callbackBuffers, callbackState]
  | succ m ih =>
    intro u
    have hm : m + 1 + j = (m + j) + 1 := by omega
    rw [hm, callbackBuffers_succ, callbackBuffers_succ, ih]
    simp [callbackState]

theorem callbackBuffers_flatten_length {U : Type} (cb : SDL_AudioCallback U) (silence : Byte)
    (C : Nat) (hcb : WritesInPlace cb) (n : Nat) : ∀ (u : U),
    (callbackBuffers cb silence C n u).flatten.length = n * C := by
  induction n with
  | zero => intro u; simp [callbackBuffers]
  | succ n ih =>
    intro u
    rw [callbackBuffers_succ, List.flatten_cons, List.length_append, ih,
      hcb u _ C (by simp)]
    rw [Nat.succ_mul]; omega

theorem zipWith_sizes (reqs : List AudioBuffer) : ∀ (ws : List (List Byte)),
    ws.map List.length = reqs.map AudioBuffer.mDataByteSize →
    (List.zipWith (fun (b : AudioBuffer) (w : List Byte) => [{ b with mData := w }]) reqs ws).map
        (fun l => l.map AudioBuffer.mDataByteSize)
      = reqs.map (fun b => [b.mDataByteSize]) ∧
    deliveredBytes
        (List.zipWith (fun (b : AudioBuffer) (w : List Byte) => [{ b with mData := w }]) reqs ws)
      = ws.flatten := by
  induction reqs with
  | nil =>
    intro ws h
    cases ws with
    | nil => simp [deliveredBytes]
    | cons w ws => simp at h
  | cons b reqs ih =>
    intro ws h
    cases ws with
    | nil => simp at h
    | cons w ws =>
      simp only [List.map_cons, List.cons.injEq] at h
      obtain ⟨h1, h2⟩ := ih ws h.2
      constructor
      · simp only [List.zipWith_cons_cons, List.map_cons, h1]
        simp [AudioBuffer.mDataByteSize, h.1] at h ⊢
      · simp only [deliveredBytes] at h2 ⊢
        simp only [List.zipWith_cons_cons, List.map_cons, List.flatten_cons, h2]
        simp

/-- C1 (bridge byte conservation). On an enabled, unpaused stream of capacity
`C > 0` in the freshly opened state (cursor = capacity), every sequence of
single-segment render requests returns; request `i` is handed back as a single
segment of its own `N_i` bytes; and the delivered bytes, concatenated in request
order, are exactly the first `N_1 + ... + N_k` bytes of the concatenation of the
successive full-capacity buffers of the user callback. -/
theorem bridge_byte_conservation {U : Type} (C : Nat) (this : SDL_AudioDevice U)
    (h : SDL_PrivateAudioData) (garbage : List Byte) (reqs : List AudioBuffer) (fuel : Nat)
    (hC : 0 < C) (hen : this.enabled = true) (hpa : this.paused = false)
    (hh : this.hidden = some h) (hb : h.buffer = some garbage) (hlen : garbage.length = C)
    (hsz : h.bufferSize = C) (hoff : h.bufferOffset = C)
    (hcb : WritesInPlace this.spec.callback)
    (hfuel : ∀ b ∈ reqs, b.mDataByteSize ≤ fuel) :
    ∃ tr : RenderTrace U,
      renderRequests fuel this (reqs.map singleSegment) = some tr ∧
      tr.delivered.map (fun l => l.map AudioBuffer.mDataByteSize)
        = reqs.map (fun b => [b.mDataByteSize]) ∧
      ∀ n, (reqs.map AudioBuffer.mDataByteSize).sum ≤ n * C →
        deliveredBytes tr.delivered
          = (callbackBuffers this.spec.callback this.spec.silence C n
              this.spec.userdata).flatten.take (reqs.map AudioBuffer.mDataByteSize).sum := by
  obtain ⟨u', buf', off', k, ws, hrun, _, hws, hpend⟩ :=
    renderRequests_spec C hC fuel reqs this h garbage hen hpa hh hb hlen hsz hcb hfuel
  obtain ⟨hsizes, hbytes⟩ := zipWith_sizes reqs ws hws
  refine ⟨_, hrun, hsizes, ?_⟩
  intro n hn
  have hp := hpend n
  simp only [pending, hoff] at hp
  rw [List.drop_eq_nil_of_le (by omega), List.nil_append, callbackBuffers_add,
    List.flatten_append] at hp
  have htot : ws.flatten.length = (reqs.map AudioBuffer.mDataByteSize).sum := by
    rw [List.length_flatten, hws]
  have hfl := callbackBuffers_flatten_length this.spec.callback this.spec.silence C hcb n
    this.spec.userdata
  simp only [hbytes]
  rw [← htot, ← List.take_append_of_le_length (by rw [hfl, htot]; exact hn), hp,
    List.take_left' rfl]

theorem countingCallback_writesInPlace : WritesInPlace countingCallback := by
  intro u b n _
  simp [countingCallback]

/-- C1, at the test of the spec: capacity 64, requests of 10, 100 and 54 bytes,
callback `i` filling its buffer with the byte value `i`. The 164 delivered bytes
are 64 ones, 64 twos and 36 threes. -/
theorem bridge_byte_conservation_witness :
    (renderRequests 100 openedDevice (sampleRequests.map singleSegment)).map
        (fun tr => deliveredBytes tr.delivered)
      = some (List.replicate 64 1 ++ List.replicate 64 2 ++ List.replicate 36 3) := by
  obtain ⟨tr, hrun, _, hbytes⟩ :=
    bridge_byte_conservation 64 openedDevice openedHidden (List.replicate 64 0xAA)
      sampleRequests 100 (by decide) rfl rfl rfl rfl (by simp) rfl rfl
      countingCallback_writesInPlace (by decide)
  rw [hrun, Option.map_some', hbytes 3 (by decide)]
  rfl

/-- The sample open succeeds and leaves the device in the state `openedDevice`:
cursor and capacity both equal to the computed size. -/
theorem sample_open_succeeds :
    COREAUDIO_OpenAudio samplePlatform sampleGlobals 1 sampleDevice none false
      = some (1, openedDevice,
          [Event.OpenAComponent,
           Event.SetEnableIOFlag AudioUnitScope.Input 1 0,
           Event.SetEnableIOFlag AudioUnitScope.Output 0 1,
           Event.SetCurrentDevice 41,
           Event.SetStreamFormat AudioUnitScope.Input 0
             { mSampleRate := 44100, mFormatID := kAudioFormatLinearPCM, mFormatFlags := 12,
               mBytesPerPacket := 4, mFramesPerPacket := 1, mBytesPerFrame := 4,
               mChannelsPerFrame := 2, mBitsPerChannel := 16 },
           Event.SetRenderCallback AudioUnitScope.Input 0 RenderProc.outputCallback,
           Event.AudioUnitInitialize,
           Event.AudioOutputUnitStart]) := by
  rfl

/-! ## Silence when disabled or paused -/

/-- C2 (silence on disabled / paused). A single-segment render request on a
stream that is disabled or paused returns; the destination comes back with every
one of its `N` bytes equal to the silence value; the user callback is not
invoked; and the device, with its intermediate buffer and cursor, is exactly as
before. -/
theorem silence_when_disabled_or_paused {U : Type} (fuel : Nat) (this : SDL_AudioDevice U)
    (ioData : AudioBuffer) (hoff : this.enabled = false ∨ this.paused = true) :
    ∃ out : RenderOutcome U,
      outputCallback fuel this [ioData] = some out ∧
      out.ioDataList =
        [{ ioData with mData := List.replicate ioData.mDataByteSize this.spec.silence }] ∧
      out.calls = [] ∧
      out.this.spec.userdata = this.spec.userdata ∧
      out.this.hidden = this.hidden ∧
      out.this.enabled = this.enabled ∧ out.this.paused = this.paused ∧
      out.this.spec.callback = this.spec.callback ∧
      out.status = noErr := by
  have hcond : (!this.enabled || this.paused) = true := by
    rcases hoff with h | h <;> simp [h]
  refine ⟨{ this := this
            ioDataList :=
              [{ ioData with
                 mData := SDL_memset ioData.mData this.spec.silence ioData.mDataByteSize }]
            calls := []
            status := 0 }, ?_, ?_, rfl, rfl, rfl, rfl, rfl, rfl, rfl⟩
  · simp only [outputCallback, hcond, if_true]
  · simp [AudioBuffer.mDataByteSize, SDL_memset]

/-- C2 on a paused device with a partly consumed buffer: a request of three
bytes comes back as three bytes of silence, and buffer and cursor are kept. -/
theorem silence_when_disabled_or_paused_witness :
    ∃ out : RenderOutcome Nat,
      outputCallback 0 { openedDevice with paused := true }
          [{ mNumberChannels := 2, mData := [5, 6, 7] }] = some out ∧
      out.ioDataList = [{ mNumberChannels := 2, mData := [0, 0, 0] }] ∧
      out.calls = [] ∧
      out.this.spec.userdata = 0 ∧
      out.this.hidden = some openedHidden ∧
      out.this.enabled = true ∧ out.this.paused = true ∧
      out.this.spec.callback = countingCallback ∧
      out.status = noErr :=
  silence_when_disabled_or_paused 0 { openedDevice with paused := true }
    { mNumberChannels := 2, mData := [5, 6, 7] } (Or.inr rfl)

/-! ## Open and close -/

/-- The negotiation loop never leaves a first candidate that is neither zero
nor a valid format: whatever the fuel, it is still running when the fuel is
spent. -/
theorem negotiationLoop_stuck (t : SDL_AudioFormat) (ht : t ≠ 0) (hnv : t ∉ validFormats) :
    ∀ (fuel : Nat) (st : Negotiation), st.valid_datatype = false →
      negotiationLoop t fuel st = none := by
  intro fuel
  induction fuel with
  | zero =>
    intro st hst
    unfold negotiationLoop
    simp [hst, ht]
  | succ fuel ih =>
    intro st hst
    unfold negotiationLoop
    simp only [hst, hnv, if_false]
    simp [ht]
    exact ih _ rfl

/-- The negotiation loop accepts a first candidate that is a valid format, in
one iteration. -/
theorem negotiationLoop_accepts (t : SDL_AudioFormat) (hv : t ∈ validFormats) (fuel : Nat)
    (st : Negotiation) (hst : st.valid_datatype = false) :
    ∃ n, negotiationLoop t (fuel + 1) st = some n ∧ n.format = t ∧ n.valid_datatype = true := by
  have ht : t ≠ 0 := by
    intro h0
    subst h0
    revert hv
    decide
  unfold negotiationLoop
  simp only [hst, hv, if_true]
  unfold negotiationLoop
  simp [ht]

/-- An open whose first candidate encoding is neither zero nor a valid format
does not return, whatever follows in the candidate list. -/
theorem open_stuck_on_unlisted {U : Type} (P : Platform) (G : Globals)
    (this : SDL_AudioDevice U) (devname : Option (List Char)) (iscapture : Bool)
    (t : SDL_AudioFormat) (rest : List SDL_AudioFormat)
    (hm : P.mallocHidden = true) (hc : P.formatCandidates this.spec.format = t :: rest)
    (ht : t ≠ 0) (hnv : t ∉ validFormats) (fuel : Nat) :
    COREAUDIO_OpenAudio P G fuel this devname iscapture = none := by
  simp only [COREAUDIO_OpenAudio, SDL_FirstAudioFormat, hm, hc, List.headD_cons]
  rw [negotiationLoop_stuck t ht hnv fuel _ rfl]
  rfl

/-- C3, the code at failing inputs. Five opens on the sample platform that
return failure without having run the close sequence: the requested name is not
in the directory; the candidate list is empty; the device is not alive; the
device is hogged; the component is not found. Each returns `0` with
`this->hidden` still allocated, and no call of the close sequence among its
effects. -/
theorem open_failure_keeps_hidden :
    COREAUDIO_OpenAudio samplePlatform sampleGlobals 1 sampleDevice (some ['n', 'o']) false
      = some (0, { sampleDevice with hidden := some zeroedHidden },
          [Event.SDL_SetError "CoreAudio: No such audio device.",
           Event.SDL_SetError "Couldn't find requested CoreAudio device"]) ∧
    COREAUDIO_OpenAudio { samplePlatform with formatCandidates := fun _ => [] } sampleGlobals 1
        sampleDevice none false
      = some (0, { sampleDevice with hidden := some zeroedHidden },
          [Event.SDL_SetError "Unsupported audio format"]) ∧
    COREAUDIO_OpenAudio { samplePlatform with deviceIsAlive := fun _ _ => (0, 0) }
        sampleGlobals 1 sampleDevice none false
      = some (0, { sampleDevice with hidden := some zeroedHidden },
          [Event.SDL_SetError "CoreAudio: requested device exists, but isn't alive.",
           Event.SDL_SetError "Couldn't find requested CoreAudio device"]) ∧
    COREAUDIO_OpenAudio { samplePlatform with hogMode := fun _ _ => (0, 1234) }
        sampleGlobals 1 sampleDevice none false
      = some (0, { sampleDevice with hidden := some zeroedHidden },
          [Event.SDL_SetError "CoreAudio: requested device is being hogged.",
           Event.SDL_SetError "Couldn't find requested CoreAudio device"]) ∧
    COREAUDIO_OpenAudio { samplePlatform with findNextComponent := false }
        sampleGlobals 1 sampleDevice none false
      = some (0, { sampleDevice with hidden := some { zeroedHidden with deviceID := 41 } },
          [Event.SDL_SetError "Couldn't find requested CoreAudio component"]) :=
  ⟨rfl, rfl, rfl, rfl, rfl⟩

/-- The sibling failure path: a platform call checked by `CHECK_RESULT` (here
the stream format is refused) runs the close sequence before the failure is
returned, and `this->hidden` is `NULL` afterwards. -/
theorem open_failure_through_CHECK_RESULT_closes :
    (COREAUDIO_OpenAudio { samplePlatform with setStreamFormat := -50 } sampleGlobals 1
        sampleDevice none false).map (fun r => (r.1, r.2.1.hidden, r.2.2.drop 5))
      = some (0, none,
          [Event.AudioOutputUnitStop,
           Event.SetRenderCallback AudioUnitScope.Input 0 RenderProc.zeroed,
           Event.CloseComponent,
           Event.SDL_free_buffer,
           Event.SDL_free_hidden,
           Event.SDL_SetError
             "CoreAudio error (AudioUnitSetProperty (kAudioUnitProperty_StreamFormat)): -50"]) := by
  rfl

/-- C4, the code at a failing input. The candidate list is an unlisted encoding
followed by signed 16-bit little endian, which is a valid format. The
negotiation loop never advances to the second candidate: for every amount of
fuel the open has not returned. -/
theorem negotiation_never_reaches_second_candidate (fuel : Nat) :
    AUDIO_S16LSB ∈ validFormats ∧
    COREAUDIO_OpenAudio
        { samplePlatform with formatCandidates := fun _ => [unlistedFormat, AUDIO_S16LSB] }
        sampleGlobals fuel sampleDevice none false = none :=
  ⟨by decide,
   open_stuck_on_unlisted _ _ _ _ _ unlistedFormat [AUDIO_S16LSB] rfl rfl (by decide)
     (by decide) fuel⟩

/-- C5, the code at a failing input. The candidate list holds one encoding,
which is not zero and not a valid format. The open never reports the
unsupported format: for every amount of fuel it has not returned. -/
theorem unsupported_format_never_reported (fuel : Nat) :
    (∀ f ∈ [unlistedFormat], f ∉ validFormats) ∧
    COREAUDIO_OpenAudio
        { samplePlatform with formatCandidates := fun _ => [unlistedFormat] }
        sampleGlobals fuel sampleDevice none false = none :=
  ⟨by decide,
   open_stuck_on_unlisted _ _ _ _ _ unlistedFormat [] rfl rfl (by decide) (by decide) fuel⟩

/-- C9 (idempotent close). Closing a device whose `hidden` is `NULL` makes no
call and returns the device unchanged; after any close `hidden` is `NULL`; and
a second close makes no call and changes nothing. -/
theorem close_idempotent {U : Type} (this : SDL_AudioDevice U) :
    COREAUDIO_CloseAudio { this with hidden := none } = ({ this with hidden := none }, []) ∧
    (COREAUDIO_CloseAudio this).1.hidden = none ∧
    COREAUDIO_CloseAudio (COREAUDIO_CloseAudio this).1 = ((COREAUDIO_CloseAudio this).1, []) := by
  refine ⟨rfl, ?_, ?_⟩
  · unfold COREAUDIO_CloseAudio
    cases hh : this.hidden <;> simp [hh]
  · unfold COREAUDIO_CloseAudio
    cases hh : this.hidden <;> simp [hh]

/-! ## Lookup by name -/

theorem find_device_scan_spec (devname : List Char) :
    ∀ (devs : List COREAUDIO_DeviceList) (id0 : AudioDeviceID),
      (∃ (i : Nat) (r : COREAUDIO_DeviceList),
          devs[i]? = some r ∧ r.name = devname ∧
          (∀ (j : Nat) (r' : COREAUDIO_DeviceList),
            j < i → devs[j]? = some r' → r'.name ≠ devname) ∧
          find_device_scan devname devs id0 = (1, r.id)) ∨
      ((∀ r ∈ devs, r.name ≠ devname) ∧ find_device_scan devname devs id0 = (0, id0)) := by
  intro devs
  induction devs with
  | nil => intro id0; right; simp [find_device_scan]
  | cons d devs ih =>
    intro id0
    by_cases hd : devname = d.name
    · left
      refine ⟨0, d, by simp, hd.symm, ?_, ?_⟩
      · intro j r' hj; omega
      · simp [find_device_scan, hd]
    · rcases ih id0 with ⟨i, r, hi, hname, hmin, hres⟩ | ⟨hall, hres⟩
      · left
        refine ⟨i + 1, r, by simpa using hi, hname, ?_, ?_⟩
        · intro j r' hj hj'
          cases j with
          | zero =>
            simp at hj'
            subst hj'
            exact fun h => hd h.symm
          | succ j =>
            simp at hj'
            exact hmin j r' (by omega) hj'
        · simp [find_device_scan, hd, hres]
      · right
        refine ⟨?_, by simp [find_device_scan, hd, hres]⟩
        intro r hr
        rcases List.mem_cons.mp hr with h | h
        · subst h; exact fun h => hd h.symm
        · exact hall r h

/-- C8 (lookup by name is first exact match). For the table of the requested
direction, `find_device_id` either returns 1 with the identity of the record at
the lowest position whose name equals the requested name, or returns 0, leaving
the identity untouched, when no record has that name; it returns 0 if and only
if no record has that name; and in that case `find_device_by_name` fails with
the error "CoreAudio: No such audio device.", leaving the device as it was. -/
theorem find_device_id_first_match (G : Globals) (devname : List Char) (iscapture : Bool)
    (id0 : AudioDeviceID) :
    ((∃ (i : Nat) (r : COREAUDIO_DeviceList),
        (if iscapture then G.inputDevices else G.outputDevices)[i]? = some r ∧
        r.name = devname ∧
        (∀ (j : Nat) (r' : COREAUDIO_DeviceList), j < i →
          (if iscapture then G.inputDevices else G.outputDevices)[j]? = some r' →
          r'.name ≠ devname) ∧
        find_device_id G devname iscapture id0 = (1, r.id)) ∨
      ((∀ r ∈ (if iscapture then G.inputDevices else G.outputDevices), r.name ≠ devname) ∧
        find_device_id G devname iscapture id0 = (0, id0))) ∧
    ((find_device_id G devname iscapture id0).1 = 0 ↔
      ∀ r ∈ (if iscapture then G.inputDevices else G.outputDevices), r.name ≠ devname) ∧
    (∀ (U : Type) (P : Platform) (this : SDL_AudioDevice U),
      (find_device_id G devname iscapture 0).1 = 0 →
      find_device_by_name P G this (some devname) iscapture
        = some (0, this, [Event.SDL_SetError "CoreAudio: No such audio device."])) := by
  have hspec := find_device_scan_spec devname
    (if iscapture then G.inputDevices else G.outputDevices) id0
  refine ⟨hspec, ?_, ?_⟩
  · unfold find_device_id
    rcases hspec with ⟨i, r, hi, hname, _, hres⟩ | ⟨hall, hres⟩
    · rw [hres]
      constructor
      · intro h; simp at h
      · intro hall
        exact absurd hname (hall r (List.getElem?_mem hi))
    · rw [hres]
      simp only [true_iff]
      exact hall
  · intro U P this h0
    simp only [find_device_by_name, h0, if_true]

/-- C8 on the sample directory, whose output table is
`[(41, "Line Out"), (44, tab)]`: `Line Out` is found at position 0, and a name
with the trailing spaces still attached is not found. -/
theorem find_device_id_first_match_witness :
    find_device_id sampleGlobals ['L', 'i', 'n', 'e', ' ', 'O', 'u', 't'] false 0 = (1, 41) ∧
    find_device_by_name samplePlatform sampleGlobals sampleDevice
        (some ['L', 'i', 'n', 'e', ' ', 'O', 'u', 't', ' ', ' ']) false
      = some (0, sampleDevice, [Event.SDL_SetError "CoreAudio: No such audio device."]) :=
  ⟨by decide,
   (find_device_id_first_match sampleGlobals ['L', 'i', 'n', 'e', ' ', 'O', 'u', 't', ' ', ' ']
      false 0).2.2 Nat samplePlatform sampleDevice (by decide)⟩

/-! ## Exclusivity check -/

/-- The hog-mode guard as the source writes it. For an endpoint that is resolved
and reports alive, on a device whose private data is allocated,
`find_device_by_name` fails with the error "CoreAudio: requested device is being
hogged." when the hog-mode query succeeds and its answer differs from -1;
otherwise it returns 1 with the identity stored in `this->hidden->deviceID` and
nothing else changed. -/
theorem hog_check {U : Type} (P : Platform) (G : Globals) (this : SDL_AudioDevice U)
    (h : SDL_PrivateAudioData) (devname : Option (List Char)) (iscapture : Bool)
    (devid : AudioDeviceID) (alive : Nat)
    (hh : this.hidden = some h)
    (hres : ResolvesTo P G devname iscapture devid)
    (halive : P.deviceIsAlive devid iscapture = (noErr, alive)) (hne : alive ≠ 0) :
    find_device_by_name P G this devname iscapture =
      if (P.hogMode devid iscapture).1 = noErr ∧ (P.hogMode devid iscapture).2 ≠ -1 then
        some (0, this, [Event.SDL_SetError "CoreAudio: requested device is being hogged."])
      else
        some (1, { this with hidden := some { h with deviceID := devid } }, []) := by
  have hchecks : find_device_checks P this devid iscapture =
      if (P.hogMode devid iscapture).1 = noErr ∧ (P.hogMode devid iscapture).2 ≠ -1 then
        some (0, this, [Event.SDL_SetError "CoreAudio: requested device is being hogged."])
      else
        some (1, { this with hidden := some { h with deviceID := devid } }, []) := by
    simp only [find_device_checks, halive, hne, hh, ne_eq, not_true_eq_false, if_false]
  cases devname with
  | none =>
    simp only [ResolvesTo] at hres
    simp only [find_device_by_name, hres, ne_eq, not_true_eq_false, if_false, hchecks]
  | some name =>
    simp only [ResolvesTo] at hres
    simp only [find_device_by_name, hres, hchecks]
    simp

/-- The hog-mode guard on the sample platform: the default device 41 is alive and
the hog-mode query reports -1, so the identity 41 is bound. -/
theorem hog_check_witness :
    find_device_by_name samplePlatform sampleGlobals
        { sampleDevice with hidden := some zeroedHidden } none false
      = some (1, { sampleDevice with hidden := some { zeroedHidden with deviceID := 41 } }, []) :=
  hog_check samplePlatform sampleGlobals { sampleDevice with hidden := some zeroedHidden }
    zeroedHidden none false 41 1 rfl rfl rfl (by decide)

/-- C10 (exclusivity check). The hog-mode query, when it succeeds, answers -1
(no holder) or the process id of the holder, which is non-negative. For an
endpoint that is resolved and reports alive, on a device whose private data is
allocated, `find_device_by_name` then fails with the error "CoreAudio: requested
device is being hogged." exactly when the query succeeds and reports a
non-negative holder identity; when the query returns an error or reports no
holder, the check is skipped: the call returns 1 with the endpoint identity
stored in `this->hidden->deviceID`, nothing else changed and no error set. -/
theorem exclusivity_check {U : Type} (P : Platform) (G : Globals) (this : SDL_AudioDevice U)
    (h : SDL_PrivateAudioData) (devname : Option (List Char)) (iscapture : Bool)
    (devid : AudioDeviceID) (alive : Nat)
    (hh : this.hidden = some h)
    (hres : ResolvesTo P G devname iscapture devid)
    (halive : P.deviceIsAlive devid iscapture = (noErr, alive)) (hne : alive ≠ 0)
    (hanswer : (P.hogMode devid iscapture).1 = noErr →
      (P.hogMode devid iscapture).2 = -1 ∨ 0 ≤ (P.hogMode devid iscapture).2) :
    (find_device_by_name P G this devname iscapture
        = some (0, this, [Event.SDL_SetError "CoreAudio: requested device is being hogged."]) ↔
      ((P.hogMode devid iscapture).1 = noErr ∧ 0 ≤ (P.hogMode devid iscapture).2)) ∧
    (((P.hogMode devid iscapture).1 ≠ noErr ∨ (P.hogMode devid iscapture).2 = -1) →
      find_device_by_name P G this devname iscapture
        = some (1, { this with hidden := some { h with deviceID := devid } }, [])) ∧
    find_device_by_name P G this devname iscapture =
      (if (P.hogMode devid iscapture).1 = noErr ∧ 0 ≤ (P.hogMode devid iscapture).2 then
        some (0, this, [Event.SDL_SetError "CoreAudio: requested device is being hogged."])
      else
        some (1, { this with hidden := some { h with deviceID := devid } }, [])) := by
  have hguard : ((P.hogMode devid iscapture).1 = noErr ∧ (P.hogMode devid iscapture).2 ≠ -1) ↔
      ((P.hogMode devid iscapture).1 = noErr ∧ 0 ≤ (P.hogMode devid iscapture).2) := by
    constructor
    · rintro ⟨h1, h2⟩
      rcases hanswer h1 with h3 | h3
      · exact absurd h3 h2
      · exact ⟨h1, h3⟩
    · rintro ⟨h1, h2⟩
      exact ⟨h1, by omega⟩
  have hrun := hog_check P G this h devname iscapture devid alive hh hres halive hne
  simp only [hguard] at hrun
  refine ⟨?_, ?_, hrun⟩
  · rw [hrun]
    by_cases hc : (P.hogMode devid iscapture).1 = noErr ∧ 0 ≤ (P.hogMode devid iscapture).2
    · simp only [hc, and_self, if_true]
    · simp only [hc, if_false, iff_false]
      intro heq
      simp at heq
  · intro hskip
    rw [hrun]
    have hc : ¬ ((P.hogMode devid iscapture).1 = noErr ∧ 0 ≤ (P.hogMode devid iscapture).2) := by
      rintro ⟨h1, h2⟩
      rcases hskip with h3 | h3
      · exact h3 h1
      · omega
    simp only [hc, if_false]

/-- C10 on the sample platform, whose default device 41 is alive. When the
hog-mode query reports the holder 1234 the selector fails with the hogged
error and the device is left as it was; when the query fails with the status
-50 the check is skipped and the identity 41 is bound. -/
theorem exclusivity_check_witness :
    find_device_by_name { samplePlatform with hogMode := fun _ _ => (0, 1234) } sampleGlobals
        { sampleDevice with hidden := some zeroedHidden } none false
      = some (0, { sampleDevice with hidden := some zeroedHidden },
          [Event.SDL_SetError "CoreAudio: requested device is being hogged."]) ∧
    find_device_by_name { samplePlatform with hogMode := fun _ _ => (-50, 0) } sampleGlobals
        { sampleDevice with hidden := some zeroedHidden } none false
      = some (1, { sampleDevice with hidden := some { zeroedHidden with deviceID := 41 } }, []) :=
  ⟨(exclusivity_check { samplePlatform with hogMode := fun _ _ => (0, 1234) } sampleGlobals
      { sampleDevice with hidden := some zeroedHidden } zeroedHidden none false 41 1
      rfl rfl rfl (by decide) (fun _ => Or.inr (by decide))).1.mpr ⟨rfl, by decide⟩,
   (exclusivity_check { samplePlatform with hogMode := fun _ _ => (-50, 0) } sampleGlobals
      { sampleDevice with hidden := some zeroedHidden } zeroedHidden none false 41 1
      rfl rfl rfl (by decide) (fun _ => Or.inr (by decide))).2.1 (Or.inl (by decide))⟩

/-! ## Device directory -/

theorem trimTrailingSpaces_le (ptr : List Char) : ∀ n, trimTrailingSpaces ptr n ≤ n := by
  intro n
  induction n with
  | zero => simp [trimTrailingSpaces]
  | succ n ih =>
    unfold trimTrailingSpaces
    split
    · omega
    · omega

theorem trimTrailingSpaces_append (l x : List Char) :
    ∀ n, n ≤ l.length → trimTrailingSpaces (l ++ x) n = trimTrailingSpaces l n := by
  intro n
  induction n with
  | zero => intro _; simp [trimTrailingSpaces]
  | succ n ih =>
    intro hn
    unfold trimTrailingSpaces
    rw [List.getElem?_append_left (by omega), ih (by omega)]

/-- The trimming loop, started at `strlen(ptr)`, cuts `ptr` to what is left
after its trailing spaces are removed. -/
theorem take_trimTrailingSpaces (ptr : List Char) :
    ptr.take (trimTrailingSpaces ptr ptr.length) = ptr.rdropWhile (fun c => c == ' ') := by
  induction ptr using List.reverseRecOn with
  | nil => simp [trimTrailingSpaces]
  | append_singleton l c ih =>
    rw [List.length_append, List.length_singleton]
    unfold trimTrailingSpaces
    rw [List.getElem?_concat_length]
    by_cases hc : c = ' '
    · subst hc
      simp only [if_true]
      rw [trimTrailingSpaces_append l _ _ (Nat.le_refl _),
        List.take_append_of_le_length (trimTrailingSpaces_le l _), ih,
        List.rdropWhile_concat_pos _ _ _ (by simp)]
    · have hne : ¬ (some c = some ' ') := by simpa using hc
      simp only [hne, if_false]
      rw [List.rdropWhile_concat_neg _ _ _ (by simpa using hc)]
      have hlen : l.length + 1 = (l ++ [c]).length := by simp
      rw [hlen, List.take_length]

theorem hasChannels_iff (l : AudioBufferList) :
    hasChannels l = true ↔ ∃ b ∈ l, 0 < b.mNumberChannels := by
  induction l with
  | nil => simp [hasChannels]
  | cons b rest ih =>
    unfold hasChannels
    by_cases hb : b.mNumberChannels > 0
    · simp only [hb, if_true, true_iff]
      exact ⟨b, List.mem_cons_self _ _, hb⟩
    · simp only [hb, if_false, ih, List.mem_cons]
      constructor
      · rintro ⟨b', hb', hpos⟩
        exact ⟨b', Or.inr hb', hpos⟩
      · rintro ⟨b', hb' | hb', hpos⟩
        · subst hb'; exact absurd hpos hb
        · exact ⟨b', hb', hpos⟩

/-- Every record the enumeration loop adds to the table comes from a visited
device whose stream configuration was read and has channels, and carries the
trimmed, non-empty name of that device. -/
theorem build_device_loop_mem (P : Platform) (iscapture : Bool) :
    ∀ (devs : List AudioDeviceID) (devices : List COREAUDIO_DeviceList) (ev : List Event)
      (r : COREAUDIO_DeviceList),
      r ∈ (build_device_loop P iscapture devs devices ev).1 →
      r ∈ devices ∨
        (r.id ∈ devs ∧ P.streamConfigurationInfo r.id iscapture = noErr ∧
          (P.streamConfiguration r.id iscapture).1 = noErr ∧
          hasChannels (P.streamConfiguration r.id iscapture).2 = true ∧
          ∃ ptr, P.nameCString r.id iscapture = some ptr ∧
            0 < trimTrailingSpaces ptr ptr.length ∧
            r.name = ptr.take (trimTrailingSpaces ptr ptr.length)) := by
  intro devs
  induction devs with
  | nil => intro devices ev r hr; left; simpa [build_device_loop] using hr
  | cons dev rest ih =>
    intro devices ev r hr
    have skip : ∀ devices' ev', r ∈ (build_device_loop P iscapture rest devices' ev').1 →
        devices' = devices →
        r ∈ devices ∨
        (r.id ∈ dev :: rest ∧ P.streamConfigurationInfo r.id iscapture = noErr ∧
          (P.streamConfiguration r.id iscapture).1 = noErr ∧
          hasChannels (P.streamConfiguration r.id iscapture).2 = true ∧
          ∃ ptr, P.nameCString r.id iscapture = some ptr ∧
            0 < trimTrailingSpaces ptr ptr.length ∧
            r.name = ptr.take (trimTrailingSpaces ptr ptr.length)) := by
      intro devices' ev' h heq
      subst heq
      rcases ih _ _ r h with h | ⟨hm, hrest⟩
      · exact Or.inl h
      · exact Or.inr ⟨List.mem_cons_of_mem _ hm, hrest⟩
    unfold build_device_loop at hr
    by_cases h1 : P.streamConfigurationInfo dev iscapture = noErr
    · by_cases h2 : P.mallocBuflist dev = true
      · by_cases h3 : (P.streamConfiguration dev iscapture).1 = noErr
        · by_cases h4 : hasChannels (P.streamConfiguration dev iscapture).2 = true
          · by_cases h5 : P.objectName dev iscapture = kAudioHardwareNoError
            · cases h6 : P.nameCString dev iscapture with
              | none =>
                simp only [h1, h2, h3, h4, h5, h6, ne_eq, not_true_eq_false, if_false,
                  if_true, Bool.not_true, Bool.false_eq_true] at hr
                exact skip _ _ hr rfl
              | some ptr =>
                simp only [h1, h2, h3, h4, h5, h6, ne_eq, not_true_eq_false, if_false,
                  if_true, Bool.not_true, Bool.false_eq_true] at hr
                by_cases h7 : trimTrailingSpaces ptr ptr.length > 0
                · simp only [h7, if_true] at hr
                  rcases ih _ _ r hr with h | ⟨hm, hrest⟩
                  · rcases List.mem_append.mp h with h | h
                    · exact Or.inl h
                    · have hreq : r = { id := dev, name := ptr.take (trimTrailingSpaces ptr ptr.length) } := by
                        simpa using h
                      subst hreq
                      exact Or.inr ⟨List.mem_cons_self _ _, h1, h3, h4, ptr, h6, h7, rfl⟩
                  · exact Or.inr ⟨List.mem_cons_of_mem _ hm, hrest⟩
                · simp only [h7, if_false] at hr
                  exact skip _ _ hr rfl
            · simp only [h1, h2, h3, h4, h5, ne_eq, not_true_eq_false, not_false_eq_true,
                if_false, if_true, Bool.not_true, Bool.false_eq_true] at hr
              exact skip _ _ hr rfl
          · simp only [h1, h2, h3, h4, ne_eq, not_true_eq_false, if_false, if_true,
              Bool.not_true, Bool.false_eq_true, Bool.not_eq_true] at hr
            simp only [Bool.not_eq_true] at h4
            simp only [h4, Bool.not_false, if_true] at hr
            exact skip _ _ hr rfl
        · simp only [h1, h2, h3, ne_eq, not_true_eq_false, if_false, if_true,
            Bool.not_true, Bool.false_eq_true, Bool.not_false] at hr
          exact skip _ _ hr rfl
      · simp only [Bool.not_eq_true] at h2
        simp only [h1, h2, ne_eq, not_true_eq_false, if_false, if_true, Bool.not_false] at hr
        exact skip _ _ hr rfl
    · simp only [h1, ne_eq, not_false_eq_true, if_true] at hr
      exact skip _ _ hr rfl

/-- The enumeration loop queries the name only of a visited device whose
stream configuration was read and has channels. -/
theorem build_device_loop_name_queries (P : Platform) (iscapture : Bool) (dev' : AudioDeviceID) :
    ∀ (devs : List AudioDeviceID) (devices : List COREAUDIO_DeviceList) (ev : List Event),
      Event.GetObjectName dev' iscapture ∈ (build_device_loop P iscapture devs devices ev).2 →
      Event.GetObjectName dev' iscapture ∈ ev ∨
        (dev' ∈ devs ∧ P.streamConfigurationInfo dev' iscapture = noErr ∧
          (P.streamConfiguration dev' iscapture).1 = noErr ∧
          hasChannels (P.streamConfiguration dev' iscapture).2 = true) := by
  intro devs
  induction devs with
  | nil => intro devices ev hr; left; simpa [build_device_loop] using hr
  | cons dev rest ih =>
    intro devices ev hr
    have key : ∀ devices' ev',
        (Event.GetObjectName dev' iscapture ∈ ev' →
          Event.GetObjectName dev' iscapture ∈ ev ∨
            (dev' = dev ∧ P.streamConfigurationInfo dev iscapture = noErr ∧
              (P.streamConfiguration dev iscapture).1 = noErr ∧
              hasChannels (P.streamConfiguration dev iscapture).2 = true)) →
        Event.GetObjectName dev' iscapture ∈ (build_device_loop P iscapture rest devices' ev').2 →
        Event.GetObjectName dev' iscapture ∈ ev ∨
          (dev' ∈ dev :: rest ∧ P.streamConfigurationInfo dev' iscapture = noErr ∧
            (P.streamConfiguration dev' iscapture).1 = noErr ∧
            hasChannels (P.streamConfiguration dev' iscapture).2 = true) := by
      intro devices' ev' hev h
      rcases ih _ _ h with h | ⟨hm, hrest⟩
      · rcases hev h with h | ⟨heq, hrest⟩
        · exact Or.inl h
        · subst heq
          exact Or.inr ⟨List.mem_cons_self _ _, hrest⟩
      · exact Or.inr ⟨List.mem_cons_of_mem _ hm, hrest⟩
    have hcfg : Event.GetObjectName dev' iscapture
          ∈ ev ++ [Event.GetStreamConfiguration dev iscapture] →
        Event.GetObjectName dev' iscapture ∈ ev ∨
            (dev' = dev ∧ P.streamConfigurationInfo dev iscapture = noErr ∧
              (P.streamConfiguration dev iscapture).1 = noErr ∧
              hasChannels (P.streamConfiguration dev iscapture).2 = true) := by
      intro h
      left
      simpa using h
    unfold build_device_loop at hr
    by_cases h1 : P.streamConfigurationInfo dev iscapture = noErr
    · by_cases h2 : P.mallocBuflist dev = true
      · by_cases h3 : (P.streamConfiguration dev iscapture).1 = noErr
        · by_cases h4 : hasChannels (P.streamConfiguration dev iscapture).2 = true
          · have hname : Event.GetObjectName dev' iscapture
                  ∈ ev ++ [Event.GetStreamConfiguration dev iscapture]
                      ++ [Event.GetObjectName dev iscapture] →
                Event.GetObjectName dev' iscapture ∈ ev ∨
                    (dev' = dev ∧ P.streamConfigurationInfo dev iscapture = noErr ∧
                      (P.streamConfiguration dev iscapture).1 = noErr ∧
                      hasChannels (P.streamConfiguration dev iscapture).2 = true) := by
              intro h
              simp only [List.mem_append, List.mem_singleton, Event.GetObjectName.injEq,
                and_true, reduceCtorEq, or_false] at h
              rcases h with h | h
              · exact Or.inl h
              · exact Or.inr ⟨h, h1, h3, h4⟩
            by_cases h5 : P.objectName dev iscapture = kAudioHardwareNoError
            · cases h6 : P.nameCString dev iscapture with
              | none =>
                simp only [h1, h2, h3, h4, h5, h6, ne_eq, not_true_eq_false, if_false,
                  if_true, Bool.not_true, Bool.false_eq_true] at hr
                exact key _ _ hname hr
              | some ptr =>
                simp only [h1, h2, h3, h4, h5, h6, ne_eq, not_true_eq_false, if_false,
                  if_true, Bool.not_true, Bool.false_eq_true] at hr
                by_cases h7 : trimTrailingSpaces ptr ptr.length > 0
                · simp only [h7, if_true] at hr
                  exact key _ _ hname hr
                · simp only [h7, if_false] at hr
                  exact key _ _ hname hr
            · simp only [h1, h2, h3, h4, h5, ne_eq, not_true_eq_false, not_false_eq_true,
                if_false, if_true, Bool.not_true, Bool.false_eq_true] at hr
              exact key _ _ hname hr
          · simp only [h1, h2, h3, h4, ne_eq, not_true_eq_false, if_false, if_true,
              Bool.not_true, Bool.false_eq_true, Bool.not_eq_true] at hr
            simp only [Bool.not_eq_true] at h4
            simp only [h4, Bool.not_false, if_true] at hr
            exact key _ _ hcfg hr
        · simp only [h1, h2, h3, ne_eq, not_true_eq_false, if_false, if_true,
            Bool.not_true, Bool.false_eq_true, Bool.not_false] at hr
          exact key _ _ hcfg hr
      · simp only [Bool.not_eq_true] at h2
        simp only [h1, h2, ne_eq, not_true_eq_false, if_false, if_true, Bool.not_false] at hr
        exact key _ _ Or.inl hr
    · simp only [h1, ne_eq, not_false_eq_true, if_true] at hr
      exact key _ _ Or.inl hr

/-- Every record of a rebuilt table comes from an enumerated device whose
stream configuration was read and has channels, and carries the trimmed,
non-empty name of that device. -/
theorem build_device_list_mem (P : Platform) (iscapture : Bool) (r : COREAUDIO_DeviceList)
    (hr : r ∈ (build_device_list P iscapture).1) :
    P.streamConfigurationInfo r.id iscapture = noErr ∧
      (P.streamConfiguration r.id iscapture).1 = noErr ∧
      hasChannels (P.streamConfiguration r.id iscapture).2 = true ∧
      ∃ ptr, P.nameCString r.id iscapture = some ptr ∧
        0 < trimTrailingSpaces ptr ptr.length ∧
        r.name = ptr.take (trimTrailingSpaces ptr ptr.length) := by
  unfold build_device_list at hr
  split at hr
  · simp at hr
  · split at hr
    · simp at hr
    · split at hr
      · simp at hr
      · rcases build_device_loop_mem P iscapture _ _ _ r hr with h | ⟨_, hrest⟩
        · simp at h
        · exact hrest

/-- C7 (directory filtering). An endpoint whose stream-configuration query for
the direction fails, or whose stream configuration has no buffer with a positive
channel count, is the identity of no record of the table built by
`build_device_list`, and the name query is never issued for it. -/
theorem directory_filtering (P : Platform) (iscapture : Bool) (dev : AudioDeviceID)
    (hunusable : P.streamConfigurationInfo dev iscapture ≠ noErr ∨
      (P.streamConfiguration dev iscapture).1 ≠ noErr ∨
      ∀ b ∈ (P.streamConfiguration dev iscapture).2, b.mNumberChannels = 0) :
    (∀ r ∈ (build_device_list P iscapture).1, r.id ≠ dev) ∧
    Event.GetObjectName dev iscapture ∉ (build_device_list P iscapture).2 := by
  have hno : ¬ (P.streamConfigurationInfo dev iscapture = noErr ∧
      (P.streamConfiguration dev iscapture).1 = noErr ∧
      hasChannels (P.streamConfiguration dev iscapture).2 = true) := by
    rintro ⟨h1, h3, h4⟩
    rcases hunusable with h | h | h
    · exact h h1
    · exact h h3
    · obtain ⟨b, hb, hpos⟩ := (hasChannels_iff _).mp h4
      have := h b hb
      omega
  constructor
  · intro r hr hid
    obtain ⟨h1, h3, h4, _⟩ := build_device_list_mem P iscapture r hr
    rw [hid] at h1 h3 h4
    exact hno ⟨h1, h3, h4⟩
  · intro hq
    unfold build_device_list at hq
    split at hq
    · simp at hq
    · split at hq
      · simp at hq
      · split at hq
        · simp at hq
        · rcases build_device_loop_name_queries P iscapture dev _ _ _ hq with h | ⟨_, hrest⟩
          · simp at h
          · exact hno hrest

/-- C7 on the sample platform: device 42 reports one buffer with no channels; it
is in no record of the output table and its name is not queried. -/
theorem directory_filtering_witness :
    (∀ r ∈ (build_device_list samplePlatform false).1, r.id ≠ 42) ∧
    Event.GetObjectName 42 false ∉ (build_device_list samplePlatform false).2 :=
  directory_filtering samplePlatform false 42 (Or.inr (Or.inr (by decide)))

/-- What the trimming step of `build_device_list` achieves, for the space
character. Every record of the table carries the name the platform returned for
its endpoint with the trailing space characters removed; that name is non-empty
and does not end in a space character. An endpoint whose returned name consists
of space characters only, or is empty, is the identity of no record. -/
theorem name_sanitization (P : Platform) (iscapture : Bool) :
    (∀ r ∈ (build_device_list P iscapture).1,
      ∃ ptr, P.nameCString r.id iscapture = some ptr ∧
        r.name = ptr.rdropWhile (fun c => c == ' ') ∧
        r.name ≠ [] ∧ r.name.getLast? ≠ some ' ') ∧
    (∀ (dev : AudioDeviceID) (ptr : List Char),
      P.nameCString dev iscapture = some ptr → (∀ c ∈ ptr, c = ' ') →
      ∀ r ∈ (build_device_list P iscapture).1, r.id ≠ dev) := by
  have hfirst : ∀ r ∈ (build_device_list P iscapture).1,
      ∃ ptr, P.nameCString r.id iscapture = some ptr ∧
        r.name = ptr.rdropWhile (fun c => c == ' ') ∧
        r.name ≠ [] ∧ r.name.getLast? ≠ some ' ' := by
    intro r hr
    obtain ⟨_, _, _, ptr, hptr, hpos, hname⟩ := build_device_list_mem P iscapture r hr
    have hle := trimTrailingSpaces_le ptr ptr.length
    have hne : r.name ≠ [] := by
      intro hnil
      have hlen : r.name.length = trimTrailingSpaces ptr ptr.length := by
        rw [hname, List.length_take]; omega
      rw [hnil] at hlen
      simp at hlen
      omega
    rw [take_trimTrailingSpaces] at hname
    refine ⟨ptr, hptr, hname, hne, ?_⟩
    have hne' : ptr.rdropWhile (fun c => c == ' ') ≠ [] := by rw [← hname]; exact hne
    have hlast := List.rdropWhile_last_not (fun c => c == ' ') ptr hne'
    rw [hname, List.getLast?_eq_getLast _ hne']
    intro hsome
    apply hlast
    simp only [Option.some.injEq] at hsome
    simp [hsome]
  refine ⟨hfirst, ?_⟩
  intro dev ptr hptr hall r hr hid
  obtain ⟨ptr', hptr', hname, hne, _⟩ := hfirst r hr
  rw [hid, hptr] at hptr'
  simp only [Option.some.injEq] at hptr'
  subst hptr'
  apply hne
  rw [hname, List.rdropWhile_eq_nil_iff]
  intro c hc
  simp [hall c hc]

/-- The trimming step on the sample platform: device 41 is stored as `Line Out`,
the returned name without its two trailing spaces, and device 43, whose name is
three spaces, is in no record. -/
theorem name_sanitization_witness :
    (∃ ptr, samplePlatform.nameCString 41 false = some ptr ∧
        ['L', 'i', 'n', 'e', ' ', 'O', 'u', 't'] = ptr.rdropWhile (fun c => c == ' ') ∧
        ['L', 'i', 'n', 'e', ' ', 'O', 'u', 't'] ≠ [] ∧
        ['L', 'i', 'n', 'e', ' ', 'O', 'u', 't'].getLast? ≠ some ' ') ∧
    (∀ r ∈ (build_device_list samplePlatform false).1, r.id ≠ 43) :=
  ⟨(name_sanitization samplePlatform false).1
      { id := 41, name := ['L', 'i', 'n', 'e', ' ', 'O', 'u', 't'] } (by decide),
   (name_sanitization samplePlatform false).2 43 [' ', ' ', ' '] rfl (by decide)⟩

/-- C6, the code at a failing input. The name the platform returns for device 44
is a single tab, so it is all-whitespace; the trimming loop, which compares with
the space character only, leaves it alone, and the record `(44, tab)` is in the
output table. -/
theorem whitespace_name_is_kept :
    samplePlatform.nameCString 44 false = some ['\t'] ∧
    (∀ c ∈ ['\t'], c.isWhitespace = true) ∧
    ({ id := 44, name := ['\t'] } : COREAUDIO_DeviceList)
      ∈ (build_device_list samplePlatform false).1 := by
  decide

/-! ## Invocations of the user callback -/

/-- The count of invocations is fixed by the bookkeeping of the cursor: if a
request of `N` bytes moves the cursor from `c` to `c'`, both within the capacity,
and every invocation takes the cursor back by `C`, then the number `k` of
invocations is `invocations C c N`. -/
theorem invocations_of_cursor (C c N c' k : Nat) (hC : 0 < C) (hc : c ≤ C) (hc' : c' ≤ C)
    (hcur : c' + k * C = c + N) (hpos : 0 < N → 0 < c') (hzero : N = 0 → k = 0) :
    k = invocations C c N := by
  unfold invocations ceilDiv
  by_cases hN : N ≤ C - c
  · simp only [hN, if_true]
    by_contra hk
    have hk1 : C ≤ k * C := Nat.le_mul_of_pos_left C (Nat.pos_of_ne_zero hk)
    by_cases hN0 : N = 0
    · exact hk (hzero hN0)
    · have := hpos (Nat.pos_of_ne_zero hN0)
      omega
  · simp only [hN, if_false]
    have hc'pos : 0 < c' := hpos (by omega)
    symm
    apply Nat.div_eq_of_lt_le
    · omega
    · rw [Nat.succ_mul]
      omega

/-- From the freshly opened state (cursor at the capacity), a total of `T` bytes
served with the cursor ending at `c'` in `1..C` has taken `ceil(T / C)`
invocations. -/
theorem ceilDiv_of_cursor (C T c' k : Nat) (hc' : c' ≤ C) (hpos : 0 < c')
    (hcur : c' + k * C = C + T) : k = ceilDiv T C := by
  unfold ceilDiv
  symm
  apply Nat.div_eq_of_lt_le
  · omega
  · rw [Nat.succ_mul]
    omega

/-- The bookkeeping of the copy loop. Whenever the loop returns, on a stream of
capacity `C > 0` entered with the cursor within the capacity: the private data
is still there with the same capacity, the flags are untouched, and with `k` the
number of invocations of the user callback it made, the cursor has moved from
`c` to `c + remaining - k * C`, staying within the capacity, and is positive as
soon as a byte was asked for. -/
theorem outputLoop_cursor {U : Type} (C : Nat) (hC : 0 < C) :
    ∀ (fuel : Nat) (st st' : RenderState U) (h : SDL_PrivateAudioData) (buf : List Byte),
      st.this.hidden = some h → h.buffer = some buf → h.bufferSize = C →
      h.bufferOffset ≤ C → outputLoop fuel st = some st' →
      ∃ (h' : SDL_PrivateAudioData) (buf' : List Byte) (k : Nat),
        st'.this.hidden = some h' ∧ h'.buffer = some buf' ∧ h'.bufferSize = C ∧
        h'.bufferOffset ≤ C ∧
        st'.this.enabled = st.this.enabled ∧ st'.this.paused = st.this.paused ∧
        st'.calls.length = st.calls.length + k ∧
        h'.bufferOffset + k * C = h.bufferOffset + st.remaining ∧
        (0 < st.remaining → 0 < h'.bufferOffset) ∧
        (st.remaining = 0 → k = 0) := by
  intro fuel
  induction fuel with
  | zero =>
    intro st st' h buf hh hb hsz hc hrun
    by_cases h0 : st.remaining = 0
    · rw [outputLoop_zero _ _ h0] at hrun
      simp only [Option.some.injEq] at hrun
      subst hrun
      exact ⟨h, buf, 0, hh, hb, hsz, hc, rfl, rfl, rfl, by omega, by omega, fun _ => rfl⟩
    · unfold outputLoop at hrun
      simp [h0] at hrun
  | succ fuel ih =>
    intro st st' h buf hh hb hsz hc hrun
    by_cases h0 : st.remaining = 0
    · rw [outputLoop_zero _ _ h0] at hrun
      simp only [Option.some.injEq] at hrun
      subst hrun
      exact ⟨h, buf, 0, hh, hb, hsz, hc, rfl, rfl, rfl, by omega, by omega, fun _ => rfl⟩
    · by_cases hge : h.bufferSize ≤ h.bufferOffset
      · rw [outputLoop_refill fuel st h buf h0 hh hb hge] at hrun
        obtain ⟨h', buf', k, hh', hb', hsz', hc', hen, hpa, hcalls, hcur, hpos, hzero⟩ :=
          ih (refillStep st h buf) st' _ _ rfl rfl hsz
            (by simp only [hsz]; omega) hrun
        refine ⟨h', buf', k + 1, hh', hb', hsz', hc', hen, hpa, ?_, ?_, ?_, ?_⟩
        · rw [hcalls]
          simp only [refillStep, List.length_append, List.length_singleton]
          omega
        · simp only [refillStep, hsz] at hcur
          rw [Nat.succ_mul]
          omega
        · intro _
          simp only [refillStep, hsz] at hcur hpos hzero
          by_cases hrest : st.remaining - min C st.remaining = 0
          · have := hzero hrest
            subst this
            omega
          · exact hpos (by omega)
        · intro h; exact absurd h h0
      · rw [outputLoop_copy fuel st h buf h0 hh hb hge] at hrun
        obtain ⟨h', buf', k, hh', hb', hsz', hc', hen, hpa, hcalls, hcur, hpos, hzero⟩ :=
          ih (copyStep st h buf) st' _ _ rfl rfl hsz
            (by simp only [hsz]; omega) hrun
        refine ⟨h', buf', k, hh', hb', hsz', hc', hen, hpa, ?_, ?_, ?_, ?_⟩
        · rw [hcalls]
          simp only [copyStep]
        · simp only [copyStep, hsz] at hcur
          omega
        · intro _
          simp only [copyStep, hsz] at hcur hpos hzero
          by_cases hrest : st.remaining - min (C - h.bufferOffset) st.remaining = 0
          · have := hzero hrest
            subst this
            omega
          · exact hpos (by omega)
        · intro h; exact absurd h h0

/-- The bookkeeping of one render request on an enabled, unpaused stream:
what `outputLoop_cursor` says of the loop, for the request as a whole. -/
theorem outputCallback_cursor {U : Type} (C : Nat) (hC : 0 < C) (fuel : Nat)
    (this : SDL_AudioDevice U) (h : SDL_PrivateAudioData) (buf : List Byte) (b : AudioBuffer)
    (out : RenderOutcome U)
    (hen : this.enabled = true) (hpa : this.paused = false)
    (hh : this.hidden = some h) (hb : h.buffer = some buf) (hsz : h.bufferSize = C)
    (hc : h.bufferOffset ≤ C) (hrun : outputCallback fuel this [b] = some out) :
    ∃ (h' : SDL_PrivateAudioData) (buf' : List Byte) (k : Nat),
      out.this.hidden = some h' ∧ h'.buffer = some buf' ∧ h'.bufferSize = C ∧
      h'.bufferOffset ≤ C ∧ out.this.enabled = true ∧ out.this.paused = false ∧
      out.calls.length = k ∧
      h'.bufferOffset + k * C = h.bufferOffset + b.mDataByteSize ∧
      (0 < b.mDataByteSize → 0 < h'.bufferOffset) ∧
      (b.mDataByteSize = 0 → k = 0) := by
  simp only [outputCallback, hen, hpa, Bool.not_true, Bool.or_self, Bool.false_eq_true,
    if_false] at hrun
  cases hloop : outputLoop fuel
      { this := this, mData := b.mData, ptr := 0, remaining := b.mDataByteSize, calls := [] } with
  | none => rw [hloop] at hrun; simp at hrun
  | some st' =>
    rw [hloop] at hrun
    simp only [Option.some.injEq] at hrun
    subst hrun
    obtain ⟨h', buf', k, hh', hb', hsz', hc', hen', hpa', hcalls, hcur, hpos, hzero⟩ :=
      outputLoop_cursor C hC fuel _ st' h buf hh hb hsz hc hloop
    refine ⟨h', buf', k, hh', hb', hsz', hc', ?_, ?_, ?_, hcur, hpos, hzero⟩
    · rw [hen']; exact hen
    · rw [hpa']; exact hpa
    · simpa using hcalls

/-- The bookkeeping of a sequence of single-segment render requests on an
enabled, unpaused stream entered with the cursor in `1..C`: whenever the
sequence returns, the cursor is again in `1..C` and has moved by the total of
the requests less `C` for every invocation of the user callback. -/
theorem renderRequests_cursor {U : Type} (C : Nat) (hC : 0 < C) (fuel : Nat) :
    ∀ (reqs : List AudioBuffer) (this : SDL_AudioDevice U) (h : SDL_PrivateAudioData)
      (buf : List Byte) (tr : RenderTrace U),
      this.enabled = true → this.paused = false →
      this.hidden = some h → h.buffer = some buf → h.bufferSize = C →
      h.bufferOffset ≤ C → 0 < h.bufferOffset →
      renderRequests fuel this (reqs.map singleSegment) = some tr →
      ∃ (h' : SDL_PrivateAudioData),
        tr.this.hidden = some h' ∧ h'.bufferOffset ≤ C ∧ 0 < h'.bufferOffset ∧
        h'.bufferOffset + tr.calls.length * C
          = h.bufferOffset + (reqs.map AudioBuffer.mDataByteSize).sum := by
  intro reqs
  induction reqs with
  | nil =>
    intro this h buf tr hen hpa hh hb hsz hc hpos hrun
    simp only [List.map_nil, renderRequests, Option.some.injEq] at hrun
    subst hrun
    exact ⟨h, hh, hc, hpos, by simp⟩
  | cons b reqs ih =>
    intro this h buf tr hen hpa hh hb hsz hc hpos hrun
    simp only [List.map_cons, singleSegment, renderRequests] at hrun
    cases hout : outputCallback fuel this [b] with
    | none => rw [hout] at hrun; simp at hrun
    | some out =>
      rw [hout] at hrun
      simp only at hrun
      obtain ⟨h1, buf1, k, hh1, hb1, hsz1, hc1, hen1, hpa1, hcalls1, hcur1, hpos1, hzero1⟩ :=
        outputCallback_cursor C hC fuel this h buf b out hen hpa hh hb hsz hc hout
      have hpos1' : 0 < h1.bufferOffset := by
        by_cases hN : b.mDataByteSize = 0
        · have := hzero1 hN
          subst this
          omega
        · exact hpos1 (Nat.pos_of_ne_zero hN)
      cases hrest : renderRequests fuel out.this (List.map singleSegment reqs) with
      | none =>
        rw [hrest] at hrun
        simp at hrun
      | some tr' =>
        rw [hrest] at hrun
        simp only [Option.some.injEq] at hrun
        subst hrun
        obtain ⟨h', hh', hc', hpos', hcur'⟩ :=
          ih out.this h1 buf1 tr' hen1 hpa1 hh1 hb1 hsz1 hc1 hpos1' hrest
        refine ⟨h', hh', hc', hpos', ?_⟩
        simp only [List.length_append, List.map_cons, List.sum_cons, hcalls1, Nat.add_mul]
        omega

/-- C11 (the user callback is invoked at most once per full buffer). On a
stream of capacity `C > 0`:

* an iteration of the copy loop entered with unconsumed bytes in the
  intermediate buffer (cursor below `C`) makes no invocation and leaves the user
  state alone, while an iteration entered with the buffer exhausted (cursor at
  or above `C`) makes exactly one, on `C` bytes of silence with length `C`, and
  restarts the cursor from 0 before it copies;
* an enabled, unpaused single-segment request of `N` bytes arriving with the
  cursor at `c <= C` returns after `invocations C c N` invocations, that is none
  when `N <= C - c` and `ceil((N - (C - c)) / C)` otherwise, each on `C` bytes
  of silence, and leaves the cursor at `c + N` less `C` per invocation;
* a sequence of such requests from the freshly opened state (cursor at `C`)
  returns after exactly `ceil((N_1 + ... + N_k) / C)` invocations. -/
theorem callback_once_per_full_buffer (U : Type) (C : Nat) (hC : 0 < C) (fuel : Nat) :
    (∀ (st : RenderState U) (h : SDL_PrivateAudioData) (buf : List Byte) (fuel' : Nat),
      st.this.hidden = some h → h.buffer = some buf → buf.length = C → h.bufferSize = C →
      st.remaining ≠ 0 →
      (h.bufferOffset < C →
        outputLoop (fuel' + 1) st = outputLoop fuel' (copyStep st h buf) ∧
        (copyStep st h buf).calls = st.calls ∧
        (copyStep st h buf).this.spec.userdata = st.this.spec.userdata) ∧
      (C ≤ h.bufferOffset →
        outputLoop (fuel' + 1) st = outputLoop fuel' (refillStep st h buf) ∧
        (refillStep st h buf).calls
          = st.calls ++ [(List.replicate C st.this.spec.silence, C)] ∧
        ∃ h1, (refillStep st h buf).this.hidden = some h1 ∧
          h1.bufferOffset = 0 + min C st.remaining)) ∧
    (∀ (this : SDL_AudioDevice U) (h : SDL_PrivateAudioData) (buf : List Byte)
        (b : AudioBuffer),
      this.enabled = true → this.paused = false →
      this.hidden = some h → h.buffer = some buf → buf.length = C → h.bufferSize = C →
      h.bufferOffset ≤ C → WritesInPlace this.spec.callback → b.mDataByteSize ≤ fuel →
      ∃ (out : RenderOutcome U) (h' : SDL_PrivateAudioData),
        outputCallback fuel this [b] = some out ∧
        out.calls = List.replicate (invocations C h.bufferOffset b.mDataByteSize)
          (List.replicate C this.spec.silence, C) ∧
        out.this.hidden = some h' ∧
        h'.bufferOffset + invocations C h.bufferOffset b.mDataByteSize * C
          = h.bufferOffset + b.mDataByteSize) ∧
    (∀ (this : SDL_AudioDevice U) (h : SDL_PrivateAudioData) (buf : List Byte)
        (reqs : List AudioBuffer),
      this.enabled = true → this.paused = false →
      this.hidden = some h → h.buffer = some buf → buf.length = C → h.bufferSize = C →
      h.bufferOffset = C → WritesInPlace this.spec.callback →
      (∀ b ∈ reqs, b.mDataByteSize ≤ fuel) →
      ∃ tr : RenderTrace U,
        renderRequests fuel this (reqs.map singleSegment) = some tr ∧
        tr.calls = List.replicate (ceilDiv (reqs.map AudioBuffer.mDataByteSize).sum C)
          (List.replicate C this.spec.silence, C)) := by
  refine ⟨?_, ?_, ?_⟩
  · intro st h buf fuel' hh hb hlen hsz hr
    constructor
    · intro hlt
      exact ⟨outputLoop_copy fuel' st h buf hr hh hb (by omega), rfl, rfl⟩
    · intro hge
      refine ⟨outputLoop_refill fuel' st h buf hr hh hb (by omega), ?_, _, rfl, ?_⟩
      · simp only [refillStep, hsz]
        rw [← hlen, SDL_memset_full]
      · simp only [hsz]
  · intro this h buf b hen hpa hh hb hlen hsz hc hcb hfuel
    obtain ⟨u', buf', off', k, written, hout, _, _, _⟩ :=
      outputCallback_spec C hC fuel this h buf b hen hpa hh hb hlen hsz hcb hfuel
    obtain ⟨h', _, k', hh', _, _, hc', _, _, hcalls, hcur, hpos, hzero⟩ :=
      outputCallback_cursor C hC fuel this h buf b _ hen hpa hh hb hsz hc hout
    simp only [List.length_replicate] at hcalls
    subst hcalls
    have hk := invocations_of_cursor C h.bufferOffset b.mDataByteSize h'.bufferOffset k hC hc hc'
      hcur hpos hzero
    refine ⟨_, h', hout, ?_, hh', ?_⟩
    · simp only [hk]
    · rw [← hk]; exact hcur
  · intro this h buf reqs hen hpa hh hb hlen hsz hoff hcb hfuel
    obtain ⟨u', buf', off', k, ws, hrun, _, _, _⟩ :=
      renderRequests_spec C hC fuel reqs this h buf hen hpa hh hb hlen hsz hcb hfuel
    obtain ⟨h', _, hc', hpos', hcur⟩ :=
      renderRequests_cursor C hC fuel reqs this h buf _ hen hpa hh hb hsz
        (by omega) (by omega) hrun
    simp only [List.length_replicate, hoff] at hcur
    have hk := ceilDiv_of_cursor C _ h'.bufferOffset k hc' hpos' hcur
    refine ⟨_, hrun, ?_⟩
    simp only [hk]

/-- C11 at the test of the spec (capacity 64): the requests of 10, 100 and 54
bytes from the freshly opened state take `ceil(164 / 64) = 3` invocations, each
on 64 bytes of silence; a request of 100 bytes arriving with the cursor at 10
takes one; a request of 54 bytes arriving with the cursor at 10 takes none. -/
theorem callback_once_per_full_buffer_witness :
    (renderRequests 100 openedDevice (sampleRequests.map singleSegment)).map
        (fun tr => tr.calls) = some (List.replicate 3 (List.replicate 64 0, 64)) ∧
    (outputCallback 100 partlyConsumedDevice
        [{ mNumberChannels := 2, mData := List.replicate 100 0 }]).map
        (fun out => out.calls) = some [(List.replicate 64 0, 64)] ∧
    (outputCallback 100 partlyConsumedDevice
        [{ mNumberChannels := 2, mData := List.replicate 54 0 }]).map
        (fun out => out.calls) = some [] := by
  have hall := callback_once_per_full_buffer Nat 64 (by decide) 100
  refine ⟨?_, ?_, ?_⟩
  · obtain ⟨tr, hrun, hcalls⟩ :=
      hall.2.2 openedDevice openedHidden (List.replicate 64 0xAA) sampleRequests
        rfl rfl rfl rfl (by simp) rfl rfl countingCallback_writesInPlace (by decide)
    rw [hrun, Option.map_some', hcalls]
    rfl
  · obtain ⟨out, h', hrun, hcalls, _, _⟩ :=
      hall.2.1 partlyConsumedDevice partlyConsumedHidden (List.replicate 64 1)
        { mNumberChannels := 2, mData := List.replicate 100 0 }
        rfl rfl rfl rfl (by simp) rfl (by decide) countingCallback_writesInPlace (by decide)
    rw [hrun, Option.map_some', hcalls]
    rfl
  · obtain ⟨out, h', hrun, hcalls, _, _⟩ :=
      hall.2.1 partlyConsumedDevice partlyConsumedHidden (List.replicate 64 1)
        { mNumberChannels := 2, mData := List.replicate 54 0 }
        rfl rfl rfl rfl (by simp) rfl (by decide) countingCallback_writesInPlace (by decide)
    rw [hrun, Option.map_some', hcalls]
    rfl

end CoreAudio


